import Mathlib

/-!
# DFPongController: a shallow embedding

The controller of `DFPongController.h` / `DFPongController.cpp` as a record of its
data members and one pure function per member function.  Every function returns
the new record together with the list of calls it makes on the hardware (radio
stack, GPIO, `delay`), in program order.

Conventions
* `int` members are `Int`; `unsigned long` timestamps are `Nat` reduced modulo `2^32`,
  and their subtraction is the wrapping one (`ulSub`).
* What the code reads from the outside (`millis()`, `BLE.connected()`,
  `subscribed()`, the result of `writeValue`, of `BLE.begin()`, the RSSI) is an `Env`.
* The header selects one of two radio stacks at compile time; the choice is a
  `Backend` argument.
* The constructor stores `this` in the static `_instance`, so the null test that
  opens each callback never fires on a constructed controller; callbacks are
  functions of the controller.
* `Serial` output (`Serial.print*`, `debugPrint`) touches no member and is not
  part of the call list.
-/

namespace DFPong

/-- Radio stack picked by the platform detection of the header. -/
inductive Backend where
  | nimble
  | arduinoBLE
  deriving DecidableEq, Repr

def NEUTRAL : Int := 0
def UP : Int := 1
def DOWN : Int := 2
def HANDSHAKE : Int := 3

def LED_BLINK_SLOW : Nat := 500
def LED_BLINK_FAST : Nat := 100
def MIN_NOTIFICATION_INTERVAL : Nat := 20
def HANDSHAKE_TIMEOUT : Nat := 5000

def MANUFACTURER_DATA : List Nat := [0xDF, 0x01]

/-- Number of values of an `unsigned long` (32 bits on every supported board). -/
def UL_MOD : Nat := 4294967296

/-- Subtraction of two `unsigned long` values. -/
def ulSub (a b : Nat) : Nat := (a % UL_MOD + UL_MOD - b % UL_MOD) % UL_MOD

/-- Calls made on the hardware. -/
inductive Effect where
  | pinModeOutput (pin : Int)
  | digitalWrite (pin : Int) (level : Bool)
  | delay (ms : Nat)
  | poll
  | write (value : Nat) (accepted : Bool)
  | disconnect
  | advertise
  | stopAdvertise
  | bleBegin
  | deviceInit (name : String)
  | setPower
  | createServer
  | setServerCallbacks
  | createService (uuid : String)
  | createCharacteristic (uuid : String)
  | setCharacteristicCallbacks
  | setInitialValue (value : Nat)
  | startService
  | addServiceUUID (uuid : String)
  | setScanResponse
  | setPreferred (lo hi : Nat)
  | setEventHandlers
  | setLocalName (name : String)
  | setConnectionInterval (lo hi : Nat)
  | setPairable (enabled : Bool)
  | setAdvertisingInterval (units : Nat)
  | setManufacturerData (bytes : List Nat)
  | addCharacteristic
  | addService
  deriving DecidableEq, Repr

/-- Values the code reads from outside the controller during one call. -/
structure Env where
  /-- Clock behind `millis()`. -/
  now : Nat
  /-- `BLE.connected()` (ArduinoBLE). -/
  bleConnected : Bool
  /-- `_movementCharacteristic->subscribed()` (ArduinoBLE). -/
  subscribed : Bool
  /-- Result of `_movementCharacteristic->writeValue(..)` (ArduinoBLE). -/
  writeOk : Bool
  /-- Results of the successive `BLE.begin()` attempts (ArduinoBLE). -/
  beginResults : List Bool
  /-- `_pServer->getConnectedCount()` (NimBLE). -/
  connectedCount : Nat
  /-- `central && central.connected()` (ArduinoBLE). -/
  centralConnected : Bool
  /-- `central.rssi()` (ArduinoBLE). -/
  rssi : Int
  deriving DecidableEq, Repr

/-- Value returned by `millis()`. -/
def millis (e : Env) : Nat := e.now % UL_MOD

/-- Data members of `DFPongController`; a pointer member is `true` when non-null. -/
structure Controller where
  _controllerNumber : Int
  _statusLedPin : Int
  _debug : Bool
  _rssiThreshold : Int
  _pServer : Bool
  _pongService : Bool
  _movementCharacteristic : Bool
  _pAdvertising : Bool
  _serviceUuid : String
  _characteristicUuid : String
  _serviceStarted : Bool
  _handshakeComplete : Bool
  _ledState : Bool
  _lastSentValue : Int
  _valueChanged : Bool
  _deviceConnected : Bool
  _lastLedToggle : Nat
  _lastNotificationTime : Nat
  _connectionStartTime : Nat
  deriving DecidableEq, Repr

/-- State left by `DFPongController::DFPongController()`.  The two UUID buffers are
not written by the constructor; they are taken empty (static storage). -/
def construct : Controller :=
  { _controllerNumber := 0
    _statusLedPin := -1
    _debug := false
    _rssiThreshold := -70
    _pServer := false
    _pAdvertising := false
    _pongService := false
    _movementCharacteristic := false
    _serviceUuid := ""
    _characteristicUuid := ""
    _serviceStarted := false
    _handshakeComplete := false
    _deviceConnected := false
    _ledState := false
    _lastSentValue := 0
    _valueChanged := false
    _lastLedToggle := 0
    _lastNotificationTime := 0
    _connectionStartTime := 0 }

def setControllerNumber (s : Controller) (number : Int) : Controller :=
  { s with _controllerNumber := number }

def setStatusLED (s : Controller) (pin : Int) : Controller × List Effect :=
  ({ s with _statusLedPin := pin }, [.pinModeOutput pin, .digitalWrite pin false])

def setDebug (s : Controller) (enabled : Bool) : Controller :=
  { s with _debug := enabled }

def setRSSIThreshold (s : Controller) (dBm : Int) : Controller :=
  { s with _rssiThreshold := dBm }

/-- Text produced by `%02x` for an `int` argument: the value as a 32-bit unsigned
number in lowercase hexadecimal, padded with zeros to two characters. -/
def hex02 (v : Int) : String :=
  let ds := Nat.toDigits 16 (v % 4294967296).toNat
  String.mk (List.replicate (2 - ds.length) '0' ++ ds)

/-- What `snprintf(buf, size, ..)` leaves in `buf` when the formatted text is `text`:
at most `size - 1` characters. -/
def snprintf (size : Nat) (text : String) : String :=
  String.mk (text.data.take (size - 1))

def serviceBase : String := "19b10010-e8f2-537e-4f6c-d104768a12"
def characteristicBase : String := "19b10011-e8f2-537e-4f6c-d104768a12"

def generateUUIDs (s : Controller) : Controller :=
  let suffix := 13 + s._controllerNumber
  { s with
    _serviceUuid := snprintf 37 (serviceBase ++ hex02 suffix)
    _characteristicUuid := snprintf 37 (characteristicBase ++ hex02 suffix) }

/-- Text of `"DFPONG-%d"` written into `char defaultName[16]`. -/
def defaultName (s : Controller) : String :=
  snprintf 16 ("DFPONG-" ++ toString s._controllerNumber)

/-- The retry loop of `begin`: `BLE.begin()` is tried while `i < 3`; a failed
attempt is followed by `delay(500)`.  `left` counts the attempts still allowed. -/
def bleBeginRetry (results : List Bool) : Nat → Nat → Bool × List Effect
  | _, 0 => (false, [])
  | i, left + 1 =>
    if results.getD i false then (true, [.bleBegin])
    else
      let r := bleBeginRetry results (i + 1) left
      (r.1, Effect.bleBegin :: Effect.delay 500 :: r.2)

/-- Body of `begin(const char* deviceName)`. -/
def beginNamed (b : Backend) (e : Env) (s : Controller) (deviceName : String) :
    Bool × Controller × List Effect :=
  if s._controllerNumber < 1 ∨ s._controllerNumber > 242 then
    (false, s, [])
  else
    let s1 := generateUUIDs s
    match b with
    | .nimble =>
      let s2 := { s1 with
        _pServer := true
        _pongService := true
        _movementCharacteristic := true
        _pAdvertising := true
        _serviceStarted := true }
      (true, s2,
        [.deviceInit deviceName, .setPower, .createServer, .setServerCallbacks,
         .createService s1._serviceUuid,
         .createCharacteristic s1._characteristicUuid,
         .setCharacteristicCallbacks, .setInitialValue 0, .startService,
         .addServiceUUID s1._serviceUuid, .setScanResponse, .setPreferred 0x06 0x12,
         .advertise])
    | .arduinoBLE =>
      let s2 := { s1 with _pongService := true, _movementCharacteristic := true }
      let created : List Effect :=
        [.createService s1._serviceUuid, .createCharacteristic s1._characteristicUuid]
      let r := bleBeginRetry e.beginResults 0 3
      if !r.1 then
        (false, s2, created ++ r.2)
      else
        (true, { s2 with _serviceStarted := true },
          created ++ r.2 ++
          [.disconnect, .delay 100, .stopAdvertise, .delay 100,
           .setEventHandlers, .setLocalName deviceName,
           .addServiceUUID s1._serviceUuid,
           .setConnectionInterval 12 24, .setPairable false,
           .setAdvertisingInterval 160, .setManufacturerData MANUFACTURER_DATA,
           .addCharacteristic, .addService, .setInitialValue 0, .delay 100,
           .advertise])

/-- Model of `begin()`, which formats the default name and calls `begin(name)`. -/
def beginDefault (b : Backend) (e : Env) (s : Controller) :
    Bool × Controller × List Effect :=
  beginNamed b e s (defaultName s)

def isConnected (b : Backend) (e : Env) (s : Controller) : Bool :=
  match b with
  | .nimble => s._serviceStarted && s._deviceConnected
  | .arduinoBLE => s._serviceStarted && e.bleConnected

def isReady (b : Backend) (e : Env) (s : Controller) : Bool :=
  match b with
  | .nimble => s._serviceStarted && s._deviceConnected && s._handshakeComplete
  | .arduinoBLE =>
    s._serviceStarted && e.bleConnected && e.subscribed && s._handshakeComplete

def updateLED (b : Backend) (e : Env) (s : Controller) : Controller × List Effect :=
  if s._statusLedPin < 0 then (s, [])
  else
    let currentTime := millis e
    let connected := isConnected b e s
    if s._handshakeComplete && connected then
      (s, [.digitalWrite s._statusLedPin true])
    else if connected then
      if ulSub currentTime s._lastLedToggle ≥ LED_BLINK_FAST then
        ({ s with _ledState := !s._ledState, _lastLedToggle := currentTime },
          [.digitalWrite s._statusLedPin (!s._ledState)])
      else (s, [])
    else
      if ulSub currentTime s._lastLedToggle ≥ LED_BLINK_SLOW then
        ({ s with _ledState := !s._ledState, _lastLedToggle := currentTime },
          [.digitalWrite s._statusLedPin (!s._ledState)])
      else (s, [])

/-- Body of `update()`.  On ArduinoBLE `BLE.poll()` is where the three event
handlers are dispatched; the handlers are separate functions below, run before
the rest of the body. -/
def update (b : Backend) (e : Env) (s : Controller) : Controller × List Effect :=
  let polled : List Effect :=
    match b with
    | .nimble => []
    | .arduinoBLE => [.poll]
  let r := updateLED b e s
  let timeout : List Effect :=
    if isConnected b e r.1 && !r.1._handshakeComplete then
      if ulSub (millis e) r.1._connectionStartTime > HANDSHAKE_TIMEOUT then
        [.disconnect]
      else []
    else []
  (r.1, polled ++ r.2 ++ timeout)

/-- Conversion of an `int` to the byte handed to the characteristic. -/
def toByte (v : Int) : Nat := (v % 256).toNat

def sendControl (b : Backend) (e : Env) (s : Controller) (direction : Int) :
    Controller × List Effect :=
  let direction := if direction < 0 ∨ direction > 2 then NEUTRAL else direction
  let blocked : Bool :=
    match b with
    | .nimble => !s._deviceConnected
    | .arduinoBLE => !e.bleConnected || !e.subscribed
  if blocked then (s, [])
  else
    let valueToSend := if s._handshakeComplete then direction else HANDSHAKE
    let s1 := if valueToSend ≠ s._lastSentValue then { s with _valueChanged := true } else s
    let currentTime := millis e
    if s1._valueChanged && decide (ulSub currentTime s1._lastNotificationTime ≥ MIN_NOTIFICATION_INTERVAL) then
      match b with
      | .nimble =>
        ({ s1 with
            _lastSentValue := valueToSend
            _lastNotificationTime := currentTime
            _valueChanged := false },
          [.write (toByte valueToSend) true])
      | .arduinoBLE =>
        if e.writeOk then
          ({ s1 with
              _lastSentValue := valueToSend
              _lastNotificationTime := currentTime
              _valueChanged := false },
            [.write (toByte valueToSend) true])
        else (s1, [.write (toByte valueToSend) false])
    else (s1, [])

def getRSSI (b : Backend) (e : Env) (s : Controller) : Int :=
  match b with
  | .nimble => if s._pServer && decide (e.connectedCount > 0) then -50 else 0
  | .arduinoBLE => if e.centralConnected then e.rssi else 0

def hasStrongSignal (b : Backend) (e : Env) (s : Controller) : Bool :=
  let rssi := getRSSI b e s
  decide (rssi ≠ 0) && decide (rssi > s._rssiThreshold)

def getControllerNumber (s : Controller) : Int := s._controllerNumber

def getServiceUUID (s : Controller) : String := s._serviceUuid

def resetState (s : Controller) : Controller :=
  { s with
    _handshakeComplete := false
    _lastSentValue := 0
    _valueChanged := false
    _lastNotificationTime := 0
    _connectionStartTime := 0 }

/-- Model of `ServerCallbacks::onConnect` (NimBLE). -/
def ServerCallbacks_onConnect (e : Env) (s : Controller) : Controller × List Effect :=
  let s1 := { s with
    _deviceConnected := true
    _handshakeComplete := false
    _lastSentValue := HANDSHAKE
    _valueChanged := true
    _connectionStartTime := millis e }
  (s1, if s1._statusLedPin ≥ 0 then [.digitalWrite s1._statusLedPin true] else [])

/-- Model of `ServerCallbacks::onDisconnect` (NimBLE). -/
def ServerCallbacks_onDisconnect (s : Controller) : Controller × List Effect :=
  (resetState { s with _deviceConnected := false }, [.advertise])

/-- Model of `CharacteristicCallbacks::onWrite` (NimBLE); `value` is the first byte
of the characteristic. -/
def CharacteristicCallbacks_onWrite (s : Controller) (value : Nat) : Controller :=
  if (value : Int) = HANDSHAKE then { s with _handshakeComplete := true } else s

/-- Model of `onBLEConnected` (ArduinoBLE). -/
def onBLEConnected (e : Env) (s : Controller) : Controller × List Effect :=
  let s1 := { s with
    _deviceConnected := true
    _handshakeComplete := false
    _lastSentValue := HANDSHAKE
    _valueChanged := true
    _connectionStartTime := millis e }
  (s1, if s1._statusLedPin ≥ 0 then [.digitalWrite s1._statusLedPin true] else [])

/-- Model of `onBLEDisconnected` (ArduinoBLE). -/
def onBLEDisconnected (s : Controller) : Controller × List Effect :=
  (resetState { s with _deviceConnected := false },
    [.stopAdvertise, .delay 50, .advertise])

/-- Model of `onCharacteristicWritten` (ArduinoBLE); `value` is the byte held by the
characteristic. -/
def onCharacteristicWritten (s : Controller) (value : Nat) : Controller :=
  if (value : Int) = HANDSHAKE then { s with _handshakeComplete := true } else s

/-- Connect event on the selected backend. -/
def onConnect (b : Backend) (e : Env) (s : Controller) : Controller × List Effect :=
  match b with
  | .nimble => ServerCallbacks_onConnect e s
  | .arduinoBLE => onBLEConnected e s

/-- Disconnect event on the selected backend. -/
def onDisconnect (b : Backend) (s : Controller) : Controller × List Effect :=
  match b with
  | .nimble => ServerCallbacks_onDisconnect s
  | .arduinoBLE => onBLEDisconnected s

/-- Characteristic-written event on the selected backend. -/
def onWritten (b : Backend) (s : Controller) (value : Nat) : Controller :=
  match b with
  | .nimble => CharacteristicCallbacks_onWrite s value
  | .arduinoBLE => onCharacteristicWritten s value

/-- Calls and events a controller can receive. -/
inductive Op where
  | setControllerNumber (number : Int)
  | setStatusLED (pin : Int)
  | setDebug (enabled : Bool)
  | setRSSIThreshold (dBm : Int)
  | beginDefault
  | beginNamed (deviceName : String)
  | update
  | sendControl (direction : Int)
  | onConnect
  | onDisconnect
  | onCharacteristicWritten (value : Nat)
  deriving DecidableEq, Repr

/-- One call or event, in the environment `e`. -/
def step (b : Backend) (e : Env) (s : Controller) : Op → Controller × List Effect
  | .setControllerNumber n => (setControllerNumber s n, [])
  | .setStatusLED pin => setStatusLED s pin
  | .setDebug d => (setDebug s d, [])
  | .setRSSIThreshold d => (setRSSIThreshold s d, [])
  | .beginDefault => (beginDefault b e s).2
  | .beginNamed name => (beginNamed b e s name).2
  | .update => update b e s
  | .sendControl d => sendControl b e s d
  | .onConnect => onConnect b e s
  | .onDisconnect => onDisconnect b s
  | .onCharacteristicWritten v => (onWritten b s v, [])

/-- A sequence of calls and events, each in its own environment; every hardware
call is recorded with the clock value `now` of the step that made it. -/
def run (b : Backend) : Controller → List (Env × Op) → Controller × List (Nat × Effect)
  | s, [] => (s, [])
  | s, (e, op) :: rest =>
    let r := step b e s op
    let r2 := run b r.1 rest
    (r2.1, r.2.map (fun x => (e.now, x)) ++ r2.2)

/-! ## Vocabulary of the specification -/

/-- Lowercase hexadecimal digit of a value below 16. -/
def lowerHexDigit (d : Nat) : Char := "0123456789abcdef".data.getD d '?'

/-- Two-digit lowercase hexadecimal text of a value below 256, as the specification
describes the identifier suffix. -/
def twoHexDigits (k : Nat) : String :=
  String.mk [lowerHexDigit (k / 16), lowerHexDigit (k % 16)]

/-- Times at which a call record shows a write accepted by the transport. -/
def acceptedWriteTimes (log : List (Nat × Effect)) : List Nat :=
  log.filterMap fun p =>
    match p.2 with
    | .write _ true => some p.1
    | _ => none

/-- Values of the writes (accepted or not) of a call record. -/
def writtenValues (log : List (Nat × Effect)) : List Nat :=
  log.filterMap fun p =>
    match p.2 with
    | .write v _ => some v
    | _ => none

/-- Number of disconnect requests in a call record. -/
def disconnectRequests (log : List (Nat × Effect)) : Nat :=
  (log.filter fun p => decide (p.2 = Effect.disconnect)).length

/-- Environment at clock value `t` with the central connected and subscribed and
every transport call succeeding. -/
def envAt (t : Nat) : Env :=
  { now := t
    bleConnected := true
    subscribed := true
    writeOk := true
    beginResults := [true]
    connectedCount := 1
    centralConnected := true
    rssi := -50 }

/-- Direction after the validation that opens `sendControl`. -/
def validated (direction : Int) : Int :=
  if direction < 0 ∨ direction > 2 then NEUTRAL else direction

/-- Value `sendControl` computes for transmission. -/
def valueToSend (s : Controller) (direction : Int) : Int :=
  if s._handshakeComplete then validated direction else HANDSHAKE

/-- Separation the specification asks of accepted writes: any two of them, in the
order they were made, lie at least `MIN_NOTIFICATION_INTERVAL` apart. -/
def WritesSpaced (times : List Nat) : Prop :=
  times.Pairwise fun t1 t2 => t1 + MIN_NOTIFICATION_INTERVAL ≤ t2

/-- Clock values of a sequence never decrease. -/
def TimesOrdered (tr : List (Env × Op)) : Prop :=
  tr.Pairwise fun x y => x.1.now ≤ y.1.now

/-- Events only: a write at 100 ms, a disconnect at 101 ms, a reconnect at 102 ms
and a write at 103 ms. -/
def reconnectTrace : List (Env × Op) :=
  [(envAt 100, Op.onConnect), (envAt 100, Op.sendControl UP),
   (envAt 101, Op.onDisconnect), (envAt 102, Op.onConnect),
   (envAt 103, Op.sendControl UP)]

/-- Configuration and start of controller 1 at time 0. -/
def startTrace : List (Env × Op) :=
  [(envAt 0, Op.setControllerNumber 1), (envAt 0, Op.beginDefault)]

/-- Calls made after `reconnectTrace`: the handshake arrives, then three sends. -/
def playTrace : List (Env × Op) :=
  [(envAt 110, Op.onCharacteristicWritten 3), (envAt 123, Op.sendControl UP),
   (envAt 130, Op.sendControl DOWN), (envAt 143, Op.sendControl DOWN)]

instance (times : List Nat) : Decidable (WritesSpaced times) := by
  unfold WritesSpaced; infer_instance

instance (tr : List (Env × Op)) : Decidable (TimesOrdered tr) := by
  unfold TimesOrdered; infer_instance

/-- Controller 1 started at time 0 and connected at 100 ms, handshake pending. -/
def handshakingState (b : Backend) : Controller :=
  (run b construct (startTrace ++ [(envAt 100, Op.onConnect)])).1

/-- Two `update()` calls after the handshake timeout has elapsed. -/
def timeoutTrace : List (Env × Op) :=
  [(envAt 5200, Op.update), (envAt 5210, Op.update)]

/-- The test that opens `sendControl` after the validation: `_deviceConnected` on
NimBLE, `BLE.connected()` and `subscribed()` on ArduinoBLE. -/
def passesConnectionCheck (b : Backend) (e : Env) (s : Controller) : Bool :=
  match b with
  | .nimble => s._deviceConnected
  | .arduinoBLE => e.bleConnected && e.subscribed

/-- Value of `_valueChanged` after the comparison with `_lastSentValue` in
`sendControl`. -/
def pendingAfterCompare (s : Controller) (direction : Int) : Bool :=
  s._valueChanged || decide (valueToSend s direction ≠ s._lastSentValue)

/-- The interval test of `sendControl`. -/
def gateOpen (e : Env) (s : Controller) : Bool :=
  decide (ulSub (millis e) s._lastNotificationTime ≥ MIN_NOTIFICATION_INTERVAL)

/-- Whether the transport takes the write: NimBLE's `notify()` result is not
looked at, ArduinoBLE's `writeValue` result is. -/
def writeAccepted (b : Backend) (e : Env) : Bool :=
  match b with
  | .nimble => true
  | .arduinoBLE => e.writeOk

/-- Reading of the specification's second invariant for one call or event:
`_lastSentValue` changes only when the call made an accepted write, and then to
the value written. -/
def LastSentOnlyAfterWrite (b : Backend) (e : Env) (s : Controller) (op : Op) : Prop :=
  (step b e s op).1._lastSentValue ≠ s._lastSentValue →
    ∃ v : Nat, Effect.write v true ∈ (step b e s op).2 ∧
      (step b e s op).1._lastSentValue = (v : Int)

/-- Environment at clock value `t` with the central connected and subscribed and
the transport refusing the write. -/
def envRejecting (t : Nat) : Env :=
  { envAt t with writeOk := false }

/-- Scenario of the specification: connect, `update`, a send before the handshake,
the handshake, a send 3 ms later and one a full interval after the first write. -/
def handshakeThenUpTrace : List (Env × Op) :=
  [(envAt 100, Op.onConnect), (envAt 105, Op.update), (envAt 110, Op.sendControl UP),
   (envAt 112, Op.onCharacteristicWritten 3), (envAt 115, Op.sendControl UP),
   (envAt 130, Op.sendControl UP)]

/-- The three calls of the coalescing scenario: UP, DOWN, UP. -/
def threeCalls (e1 e2 e3 : Env) : List (Env × Op) :=
  [(e1, Op.sendControl UP), (e2, Op.sendControl DOWN), (e3, Op.sendControl UP)]

/-- Repeated `sendControl(UP)` calls, one per environment. -/
def upCalls (envs : List Env) : List (Env × Op) :=
  envs.map fun e => (e, Op.sendControl UP)

/-- Ready state with the last accepted write (of DOWN) at 143 ms. -/
def playingState (b : Backend) : Controller :=
  (run b construct (startTrace ++ reconnectTrace ++ playTrace)).1

/-- Value of a lowercase hexadecimal digit (16 for any other character). -/
def hexValue (c : Char) : Nat := "0123456789abcdef".data.indexOf c

/-- Reading of the comment "only send if value changed and enough time has passed":
a write by `sendControl` implies that the value to send differs from
`_lastSentValue` and that the interval has elapsed. -/
def SendsOnlyOnChange (b : Backend) (e : Env) (s : Controller) (direction : Int) : Prop :=
  ∀ v acc, Effect.write v acc ∈ (sendControl b e s direction).2 →
    valueToSend s direction ≠ s._lastSentValue ∧
      ulSub (millis e) s._lastNotificationTime ≥ MIN_NOTIFICATION_INTERVAL

/-- Ready state in which DOWN was the last value written (at 143 ms) and a request
for UP at 150 ms was held back by the interval. -/
def heldBackState (b : Backend) : Controller :=
  (run b (playingState b) [(envAt 150, Op.sendControl UP)]).1

/-- Controller 1 connected 96 ms before the 32-bit clock wraps, with the handshake
value written 10 ms before the wrap and the handshake still pending. -/
def beforeWrapState (b : Backend) : Controller :=
  (run b construct
    (startTrace ++ [(envAt 4294967200, Op.onConnect),
      (envAt 4294967286, Op.sendControl UP)])).1

/-- Event order in which a characteristic-written event comes only after a connect
event with no disconnect event in between; `conn` tells whether the sequence
starts inside a connection. -/
def writesWhileConnected : Bool → List (Env × Op) → Bool
  | _, [] => true
  | conn, (_, op) :: rest =>
    match op with
    | .onConnect => writesWhileConnected true rest
    | .onDisconnect => writesWhileConnected false rest
    | .onCharacteristicWritten _ => conn && writesWhileConnected conn rest
    | _ => writesWhileConnected conn rest

/-- The handshake byte arriving after the disconnect. -/
def lateHandshakeTrace : List (Env × Op) :=
  [(envAt 100, Op.onConnect), (envAt 200, Op.onDisconnect),
   (envAt 210, Op.onCharacteristicWritten 3)]

/-! # Theorems -/

/-! ## Identifier derivation -/

theorem hex02_eq_twoHexDigits (n : Int) (h1 : 1 ≤ n) (h2 : n ≤ 242) :
    hex02 (13 + n) = twoHexDigits (13 + n).toNat := by
  interval_cases n <;> rfl

/-- C1: for a controller number between 1 and 242, `generateUUIDs` stores the two
base identifiers followed by the two-digit lowercase hexadecimal text of
`13 + number`; both texts have 36 characters, so the 37-byte buffers hold them
whole; the suffix is `0e` for 1 and `ff` for 242. -/
theorem generateUUIDs_valid_range (s : Controller)
    (h1 : 1 ≤ s._controllerNumber) (h2 : s._controllerNumber ≤ 242) :
    (generateUUIDs s)._serviceUuid =
        "19b10010-e8f2-537e-4f6c-d104768a12" ++ twoHexDigits (13 + s._controllerNumber).toNat ∧
    (generateUUIDs s)._characteristicUuid =
        "19b10011-e8f2-537e-4f6c-d104768a12" ++ twoHexDigits (13 + s._controllerNumber).toNat ∧
    (generateUUIDs s)._serviceUuid.length = 36 ∧
    (generateUUIDs s)._characteristicUuid.length = 36 ∧
    (generateUUIDs s)._serviceUuid = serviceBase ++ hex02 (13 + s._controllerNumber) ∧
    (generateUUIDs s)._characteristicUuid =
        characteristicBase ++ hex02 (13 + s._controllerNumber) ∧
    (s._controllerNumber = 1 → twoHexDigits (13 + s._controllerNumber).toNat = "0e") ∧
    (s._controllerNumber = 242 → twoHexDigits (13 + s._controllerNumber).toNat = "ff") := by
  have hx := hex02_eq_twoHexDigits s._controllerNumber h1 h2
  have hs : ∀ a c : Char, snprintf 37 (serviceBase ++ String.mk [a, c]) =
      "19b10010-e8f2-537e-4f6c-d104768a12" ++ String.mk [a, c] := fun _ _ => rfl
  have hc : ∀ a c : Char, snprintf 37 (characteristicBase ++ String.mk [a, c]) =
      "19b10011-e8f2-537e-4f6c-d104768a12" ++ String.mk [a, c] := fun _ _ => rfl
  have hl1 : ∀ a c : Char,
      ("19b10010-e8f2-537e-4f6c-d104768a12" ++ String.mk [a, c]).length = 36 := fun _ _ => rfl
  have hl2 : ∀ a c : Char,
      ("19b10011-e8f2-537e-4f6c-d104768a12" ++ String.mk [a, c]).length = 36 := fun _ _ => rfl
  simp only [generateUUIDs, hx, twoHexDigits, hs, hc, hl1, hl2, true_and]
  refine ⟨rfl, rfl, ?_, ?_⟩
  · intro h; rw [h]; rfl
  · intro h; rw [h]; rfl

theorem generateUUIDs_valid_range_witness :
    (generateUUIDs (setControllerNumber construct 242))._serviceUuid =
        "19b10010-e8f2-537e-4f6c-d104768a12ff" ∧
    (generateUUIDs (setControllerNumber construct 242))._characteristicUuid =
        "19b10011-e8f2-537e-4f6c-d104768a12ff" := by
  have h := generateUUIDs_valid_range (setControllerNumber construct 242)
    (by decide) (by decide)
  exact ⟨h.1.trans rfl, h.2.1.trans rfl⟩

/-! ## Validation in `begin` -/

theorem bleBeginRetry_true_iff (results : List Bool) :
    (bleBeginRetry results 0 3).1 = true ↔
      (results.getD 0 false = true ∨ results.getD 1 false = true ∨
        results.getD 2 false = true) := by
  cases h0 : results.getD 0 false <;> cases h1 : results.getD 1 false <;>
    cases h2 : results.getD 2 false <;>
    simp only [bleBeginRetry, Nat.reduceAdd, h0, h1, h2] <;> simp

/-- C2: with a controller number below 1 or above 242, `begin` (with or without a
device name) returns false, leaves every member as it was (so `_serviceStarted`
stays false when it was false and the identifier buffers keep their content) and
makes no call on the hardware.  Once `setControllerNumber` has stored a number of
the range 1..242, `begin` passes validation: it generates the identifiers and
goes on to the radio stack, returning true on NimBLE, and on ArduinoBLE exactly
when one of the three `BLE.begin()` attempts succeeds. -/
theorem begin_rejects_invalid_number (b : Backend) (e e2 : Env) (s : Controller)
    (deviceName : String) (m : Int)
    (hbad : s._controllerNumber < 1 ∨ s._controllerNumber > 242)
    (hm1 : 1 ≤ m) (hm2 : m ≤ 242) :
    beginNamed b e s deviceName = (false, s, []) ∧
    beginDefault b e s = (false, s, []) ∧
    (s._serviceStarted = false →
      (beginNamed b e s deviceName).2.1._serviceStarted = false) ∧
    (beginNamed b e s deviceName).2.1._serviceUuid = s._serviceUuid ∧
    (beginNamed b e s deviceName).2.1._characteristicUuid = s._characteristicUuid ∧
    (beginNamed b e2 (setControllerNumber s m) deviceName).2.1._serviceUuid =
      (generateUUIDs (setControllerNumber s m))._serviceUuid ∧
    (beginNamed b e2 (setControllerNumber s m) deviceName).2.1._characteristicUuid =
      (generateUUIDs (setControllerNumber s m))._characteristicUuid ∧
    (beginNamed b e2 (setControllerNumber s m) deviceName).2.2 ≠ [] ∧
    (beginNamed Backend.nimble e2 (setControllerNumber s m) deviceName).1 = true ∧
    (beginNamed Backend.nimble e2 (setControllerNumber s m) deviceName).2.1._serviceStarted
      = true ∧
    ((beginNamed Backend.arduinoBLE e2 (setControllerNumber s m) deviceName).1 = true ↔
      (e2.beginResults.getD 0 false = true ∨ e2.beginResults.getD 1 false = true ∨
        e2.beginResults.getD 2 false = true)) ∧
    ((beginNamed Backend.arduinoBLE e2 (setControllerNumber s m) deviceName).1 = true →
      (beginNamed Backend.arduinoBLE e2 (setControllerNumber s m) deviceName).2.1._serviceStarted
        = true) := by
  have hinv : beginNamed b e s deviceName = (false, s, []) := by
    simp [beginNamed, hbad]
  have hinv2 : beginDefault b e s = (false, s, []) := by
    simp [beginDefault, beginNamed, hbad]
  have hok : ¬ ((setControllerNumber s m)._controllerNumber < 1 ∨
      (setControllerNumber s m)._controllerNumber > 242) := by
    simp only [setControllerNumber]; omega
  have hr := bleBeginRetry_true_iff e2.beginResults
  refine ⟨hinv, hinv2, ?_, ?_, ?_, ?_, ?_, ?_, ?_, ?_, ?_, ?_⟩
  · intro h; rw [hinv]; exact h
  · rw [hinv]
  · rw [hinv]
  · cases b
    · simp [beginNamed, hok, generateUUIDs]
    · by_cases hb : (bleBeginRetry e2.beginResults 0 3).1 = true <;>
        simp [beginNamed, hok, generateUUIDs, hb]
  · cases b
    · simp [beginNamed, hok, generateUUIDs]
    · by_cases hb : (bleBeginRetry e2.beginResults 0 3).1 = true <;>
        simp [beginNamed, hok, generateUUIDs, hb]
  · cases b
    · simp [beginNamed, hok]
    · by_cases hb : (bleBeginRetry e2.beginResults 0 3).1 = true <;>
        simp [beginNamed, hok, hb]
  · simp [beginNamed, hok]
  · simp [beginNamed, hok]
  · rw [← hr]
    by_cases hb : (bleBeginRetry e2.beginResults 0 3).1 = true <;>
      simp [beginNamed, hok, hb]
  · by_cases hb : (bleBeginRetry e2.beginResults 0 3).1 = true <;>
      simp [beginNamed, hok, hb]

theorem begin_rejects_invalid_number_witness :
    beginNamed Backend.arduinoBLE (envAt 0) construct "pong" = (false, construct, []) ∧
    beginNamed Backend.nimble (envAt 0) (setControllerNumber construct 243) "pong" =
      (false, setControllerNumber construct 243, []) ∧
    (beginNamed Backend.arduinoBLE (envAt 5) (setControllerNumber construct 7) "pong").1
      = true :=
  ⟨(begin_rejects_invalid_number Backend.arduinoBLE (envAt 0) (envAt 5) construct "pong" 7
      (by decide) (by decide) (by decide)).1,
   (begin_rejects_invalid_number Backend.nimble (envAt 0) (envAt 5)
      (setControllerNumber construct 243) "pong" 7
      (by decide) (by decide) (by decide)).1,
   (begin_rejects_invalid_number Backend.arduinoBLE (envAt 0) (envAt 5) construct "pong" 7
      (by decide) (by decide) (by decide)).2.2.2.2.2.2.2.2.2.2.1.mpr (by decide)⟩

/-! ## What one `sendControl` call does -/

theorem sendControl_outcome (b : Backend) (e : Env) (s : Controller) (d : Int) :
    ((sendControl b e s d).2 = [] ∧
      (sendControl b e s d).1._lastNotificationTime = s._lastNotificationTime) ∨
    ((sendControl b e s d).2 = [Effect.write (toByte (valueToSend s d)) false] ∧
      (sendControl b e s d).1._lastNotificationTime = s._lastNotificationTime) ∨
    ((sendControl b e s d).2 = [Effect.write (toByte (valueToSend s d)) true] ∧
      (sendControl b e s d).1._lastNotificationTime = millis e ∧
      MIN_NOTIFICATION_INTERVAL ≤ ulSub (millis e) s._lastNotificationTime) := by
  unfold sendControl valueToSend validated
  cases b <;> simp only [] <;> split_ifs <;> simp_all

theorem sendControl_keeps_flags (b : Backend) (e : Env) (s : Controller) (d : Int) :
    (sendControl b e s d).1._handshakeComplete = s._handshakeComplete ∧
    (sendControl b e s d).1._serviceStarted = s._serviceStarted ∧
    (sendControl b e s d).1._deviceConnected = s._deviceConnected ∧
    (sendControl b e s d).1._connectionStartTime = s._connectionStartTime := by
  unfold sendControl
  cases b <;> simp only [] <;> split_ifs <;> simp_all

theorem bleBeginRetry_effects (results : List Bool) (left i : Nat) :
    ∀ x ∈ (bleBeginRetry results i left).2, x = Effect.bleBegin ∨ x = Effect.delay 500 := by
  induction left generalizing i with
  | zero => intro x hx; simp [bleBeginRetry] at hx
  | succ n ih =>
    intro x hx
    unfold bleBeginRetry at hx
    split_ifs at hx
    · simp at hx; exact Or.inl hx
    · simp only [List.mem_cons] at hx
      rcases hx with h | h | h
      · exact Or.inl h
      · exact Or.inr h
      · exact ih _ x h

theorem updateLED_effects (b : Backend) (e : Env) (s : Controller) :
    ∀ x ∈ (updateLED b e s).2, ∃ pin level, x = Effect.digitalWrite pin level := by
  intro x hx
  unfold updateLED at hx
  simp only [] at hx
  split_ifs at hx <;> simp at hx <;> exact ⟨_, _, hx⟩

theorem updateLED_frame (b : Backend) (e : Env) (s : Controller) :
    (updateLED b e s).1 =
      { s with
        _ledState := (updateLED b e s).1._ledState
        _lastLedToggle := (updateLED b e s).1._lastLedToggle } := by
  unfold updateLED
  simp only []
  split_ifs <;> rfl

theorem update_state (b : Backend) (e : Env) (s : Controller) :
    (update b e s).1 = (updateLED b e s).1 := rfl

theorem beginNamed_effects_no_write (b : Backend) (e : Env) (s : Controller)
    (name : String) (v : Nat) (acc : Bool) :
    Effect.write v acc ∉ (beginNamed b e s name).2.2 := by
  intro hx
  unfold beginNamed at hx
  split_ifs at hx
  · simp at hx
  · cases b
    · simp at hx
    · simp only [] at hx
      split_ifs at hx
      · simp at hx
        have := bleBeginRetry_effects _ _ _ _ hx
        simp at this
      · simp at hx
        have := bleBeginRetry_effects _ _ _ _ hx
        simp at this

theorem beginNamed_session (b : Backend) (e : Env) (s : Controller) (name : String) :
    (beginNamed b e s name).2.1._handshakeComplete = s._handshakeComplete ∧
    (beginNamed b e s name).2.1._lastSentValue = s._lastSentValue ∧
    (beginNamed b e s name).2.1._valueChanged = s._valueChanged ∧
    (beginNamed b e s name).2.1._deviceConnected = s._deviceConnected ∧
    (beginNamed b e s name).2.1._lastNotificationTime = s._lastNotificationTime ∧
    (beginNamed b e s name).2.1._connectionStartTime = s._connectionStartTime ∧
    (s._serviceStarted = true → (beginNamed b e s name).2.1._serviceStarted = true) := by
  unfold beginNamed
  split_ifs
  · simp
  · cases b
    · simp [generateUUIDs]
    · simp only []
      split_ifs <;> simp [generateUUIDs]

/-! ## Handshake gating of the transmitted value -/

theorem run_cons (b : Backend) (s : Controller) (e : Env) (op : Op)
    (rest : List (Env × Op)) :
    run b s ((e, op) :: rest) =
      ((run b (step b e s op).1 rest).1,
        (step b e s op).2.map (fun x => (e.now, x)) ++ (run b (step b e s op).1 rest).2) :=
  rfl

theorem run_append (b : Backend) (s : Controller) (t1 t2 : List (Env × Op)) :
    run b s (t1 ++ t2) =
      ((run b (run b s t1).1 t2).1, (run b s t1).2 ++ (run b (run b s t1).1 t2).2) := by
  induction t1 generalizing s with
  | nil => rfl
  | cons x rest ih =>
    obtain ⟨e, op⟩ := x
    simp only [List.cons_append, run_cons, ih, List.append_assoc]

theorem writtenValues_append (l1 l2 : List (Nat × Effect)) :
    writtenValues (l1 ++ l2) = writtenValues l1 ++ writtenValues l2 := by
  simp [writtenValues, List.filterMap_append]

theorem writtenValues_step (t : Nat) (effs : List Effect) (v : Nat) :
    v ∈ writtenValues (effs.map fun x => (t, x)) ↔ ∃ acc, Effect.write v acc ∈ effs := by
  simp only [writtenValues, List.mem_filterMap, List.mem_map]
  constructor
  · rintro ⟨p, ⟨x, hx, rfl⟩, hp⟩
    cases x <;> simp at hp
    subst hp
    exact ⟨_, hx⟩
  · rintro ⟨acc, h⟩
    exact ⟨(t, Effect.write v acc), ⟨_, h, rfl⟩, rfl⟩

theorem step_no_write (b : Backend) (e : Env) (s : Controller) (op : Op)
    (hop : ∀ d, op ≠ Op.sendControl d) (v : Nat) (acc : Bool) :
    Effect.write v acc ∉ (step b e s op).2 := by
  intro hx
  cases op with
  | sendControl d => exact hop d rfl
  | beginDefault => exact beginNamed_effects_no_write _ _ _ _ _ _ hx
  | beginNamed name => exact beginNamed_effects_no_write _ _ _ _ _ _ hx
  | update =>
    simp only [step, update, List.mem_append] at hx
    rcases hx with (hx | hx) | hx
    · cases b <;> simp at hx
    · obtain ⟨_, _, h⟩ := updateLED_effects _ _ _ _ hx
      cases h
    · split_ifs at hx <;> simp at hx
  | onConnect =>
    cases b <;>
      simp only [step, onConnect, ServerCallbacks_onConnect, onBLEConnected] at hx <;>
      split_ifs at hx <;> simp at hx
  | onDisconnect =>
    cases b <;>
      simp [step, onDisconnect, ServerCallbacks_onDisconnect, onBLEDisconnected] at hx
  | setStatusLED pin => simp [step, setStatusLED] at hx
  | setControllerNumber n => simp [step] at hx
  | setDebug d => simp [step] at hx
  | setRSSIThreshold d => simp [step] at hx
  | onCharacteristicWritten w => simp [step] at hx

theorem step_handshake_stays_false (b : Backend) (e : Env) (s : Controller) (op : Op)
    (hh : s._handshakeComplete = false) (hop : ∀ w, op ≠ Op.onCharacteristicWritten w) :
    (step b e s op).1._handshakeComplete = false := by
  cases op with
  | onCharacteristicWritten w => exact absurd rfl (hop w)
  | sendControl d => simp only [step]; rw [(sendControl_keeps_flags b e s d).1]; exact hh
  | beginDefault =>
    simp only [step, beginDefault]; rw [(beginNamed_session b e s _).1]; exact hh
  | beginNamed name => simp only [step]; rw [(beginNamed_session b e s _).1]; exact hh
  | update => simp only [step, update_state]; rw [updateLED_frame]; exact hh
  | onConnect =>
    cases b <;> simp [step, onConnect, ServerCallbacks_onConnect, onBLEConnected]
  | onDisconnect =>
    cases b <;>
      simp [step, onDisconnect, ServerCallbacks_onDisconnect, onBLEDisconnected, resetState]
  | setStatusLED pin => simpa [step, setStatusLED] using hh
  | setControllerNumber n => simpa [step, setControllerNumber] using hh
  | setDebug d => simpa [step, setDebug] using hh
  | setRSSIThreshold d => simpa [step, setRSSIThreshold] using hh

theorem sendControl_writes_handshake (b : Backend) (e : Env) (s : Controller) (d : Int)
    (hh : s._handshakeComplete = false) (v : Nat) (acc : Bool)
    (hx : Effect.write v acc ∈ (sendControl b e s d).2) : v = 3 := by
  have hv : toByte (valueToSend s d) = 3 := by
    simp [valueToSend, hh, HANDSHAKE, toByte]
  rcases sendControl_outcome b e s d with h | h | h
  · rw [h.1] at hx; simp at hx
  · rw [h.1, hv] at hx; simp at hx; exact hx.1
  · rw [h.1, hv] at hx; simp at hx; exact hx.1

theorem run_writes_handshake (b : Backend) (tr : List (Env × Op)) :
    ∀ s : Controller, s._handshakeComplete = false →
      (∀ x ∈ tr, ∀ w, x.2 ≠ Op.onCharacteristicWritten w) →
      ∀ v ∈ writtenValues (run b s tr).2, v = 3 := by
  induction tr with
  | nil => intro s _ _ v hv; simp [run, writtenValues] at hv
  | cons x rest ih =>
    obtain ⟨e, op⟩ := x
    intro s hh hops v hv
    rw [run_cons, writtenValues_append, List.mem_append] at hv
    have hop : ∀ w, op ≠ Op.onCharacteristicWritten w :=
      fun w => hops (e, op) (List.mem_cons_self _ _) w
    rcases hv with hv | hv
    · obtain ⟨acc, hx⟩ := (writtenValues_step _ _ _).1 hv
      by_cases hs : ∃ d, op = Op.sendControl d
      · obtain ⟨d, rfl⟩ := hs
        exact sendControl_writes_handshake b e s d hh v acc hx
      · exact absurd hx (step_no_write b e s op (fun d h => hs ⟨d, h⟩) v acc)
    · exact ih _ (step_handshake_stays_false b e s op hh hop)
        (fun y hy => hops y (List.mem_cons_of_mem _ hy)) v hv

/-- C3: while `_handshakeComplete` is false, a write made by `sendControl` carries
the value 3 (HANDSHAKE), whatever the direction argument, the time, the backend
and the connection flag; over a whole sequence of calls and events that contains
no characteristic-written event (in particular a sequence of `sendControl`
calls) every value written is 3; and after connect, `update`, `sendControl(UP)`
the record of writes is the single value 3. -/
theorem handshake_gates_writes (b : Backend) (e : Env) (s : Controller) (d : Int)
    (tr : List (Env × Op))
    (hh : s._handshakeComplete = false)
    (hops : ∀ x ∈ tr, ∀ w, x.2 ≠ Op.onCharacteristicWritten w) :
    (∀ v acc, Effect.write v acc ∈ (sendControl b e s d).2 → v = 3) ∧
    (∀ v ∈ writtenValues (run b s tr).2, v = 3) ∧
    (run b s [(e, Op.sendControl d)]).1._handshakeComplete = false ∧
    writtenValues (run b construct
      [(envAt 0, Op.setControllerNumber 1), (envAt 0, Op.beginDefault),
       (envAt 50, Op.onConnect), (envAt 60, Op.update),
       (envAt 70, Op.sendControl UP)]).2 = [3] := by
  refine ⟨fun v acc hx => sendControl_writes_handshake b e s d hh v acc hx,
    run_writes_handshake b tr s hh hops, ?_, ?_⟩
  · simp only [run, step]; rw [(sendControl_keeps_flags b e s d).1]; exact hh
  · cases b <;> decide

theorem handshake_gates_writes_witness :
    (sendControl Backend.nimble (envAt 70) (onConnect Backend.nimble (envAt 50) construct).1
        UP).2 = [Effect.write 3 true] ∧
    (∀ v acc, Effect.write v acc ∈
      (sendControl Backend.nimble (envAt 70) (onConnect Backend.nimble (envAt 50) construct).1
        UP).2 → v = 3) :=
  ⟨by decide,
   (handshake_gates_writes Backend.nimble (envAt 70)
      (onConnect Backend.nimble (envAt 50) construct).1 UP
      [(envAt 80, Op.sendControl DOWN)] (by decide) (by simp)).1⟩

/-! ## Spacing of accepted writes -/

theorem ulSub_of_le (a c : Nat) (hc : c ≤ a) (ha : a < UL_MOD) : ulSub a c = a - c := by
  unfold ulSub
  have hc2 : c < UL_MOD := lt_of_le_of_lt hc ha
  rw [Nat.mod_eq_of_lt ha, Nat.mod_eq_of_lt hc2]
  have h : a + UL_MOD - c = (a - c) + UL_MOD := by omega
  rw [h, Nat.add_mod_right, Nat.mod_eq_of_lt (by omega)]

theorem millis_of_lt (e : Env) (h : e.now < UL_MOD) : millis e = e.now :=
  Nat.mod_eq_of_lt h

theorem acceptedWriteTimes_append (l1 l2 : List (Nat × Effect)) :
    acceptedWriteTimes (l1 ++ l2) = acceptedWriteTimes l1 ++ acceptedWriteTimes l2 := by
  simp [acceptedWriteTimes, List.filterMap_append]

theorem acceptedWriteTimes_none (t : Nat) (effs : List Effect)
    (h : ∀ v, Effect.write v true ∉ effs) :
    acceptedWriteTimes (effs.map fun x => (t, x)) = [] := by
  induction effs with
  | nil => rfl
  | cons x rest ih =>
    have hrest := ih (fun v hv => h v (List.mem_cons_of_mem _ hv))
    have hx : ∀ v, x ≠ Effect.write v true := fun v hv => h v (hv ▸ List.mem_cons_self _ _)
    simp only [List.map_cons, acceptedWriteTimes, List.filterMap_cons]
    simp only [acceptedWriteTimes] at hrest
    cases x with
    | write v acc =>
      cases acc
      · simpa using hrest
      · exact absurd rfl (hx v)
    | _ => simpa using hrest

theorem step_lastNotification_unchanged (b : Backend) (e : Env) (s : Controller) (op : Op)
    (h1 : ∀ d, op ≠ Op.sendControl d) (h2 : op ≠ Op.onDisconnect) :
    (step b e s op).1._lastNotificationTime = s._lastNotificationTime := by
  cases op with
  | sendControl d => exact absurd rfl (h1 d)
  | onDisconnect => exact absurd rfl h2
  | beginDefault => simp only [step, beginDefault]; exact (beginNamed_session b e s _).2.2.2.2.1
  | beginNamed name => simp only [step]; exact (beginNamed_session b e s _).2.2.2.2.1
  | update => simp only [step, update_state]; rw [updateLED_frame]
  | onConnect =>
    cases b <;> simp [step, onConnect, ServerCallbacks_onConnect, onBLEConnected]
  | setStatusLED pin => simp [step, setStatusLED]
  | setControllerNumber n => simp [step, setControllerNumber]
  | setDebug d => simp [step, setDebug]
  | setRSSIThreshold d => simp [step, setRSSIThreshold]
  | onCharacteristicWritten w =>
    cases b <;>
      simp only [step, onWritten, CharacteristicCallbacks_onWrite, onCharacteristicWritten] <;>
      split_ifs <;> rfl

/-- A step other than a disconnect either makes no accepted write and keeps
`_lastNotificationTime`, or makes one, stamps it, and the gate was open. -/
theorem step_write_outcome (b : Backend) (e : Env) (s : Controller) (op : Op)
    (h2 : op ≠ Op.onDisconnect) :
    (acceptedWriteTimes ((step b e s op).2.map fun x => (e.now, x)) = [] ∧
      (step b e s op).1._lastNotificationTime = s._lastNotificationTime) ∨
    (acceptedWriteTimes ((step b e s op).2.map fun x => (e.now, x)) = [e.now] ∧
      (step b e s op).1._lastNotificationTime = millis e ∧
      MIN_NOTIFICATION_INTERVAL ≤ ulSub (millis e) s._lastNotificationTime) := by
  by_cases hs : ∃ d, op = Op.sendControl d
  · obtain ⟨d, rfl⟩ := hs
    simp only [step]
    rcases sendControl_outcome b e s d with h | h | h
    · left; rw [h.1]; exact ⟨rfl, h.2⟩
    · left; rw [h.1]; exact ⟨rfl, h.2⟩
    · right; rw [h.1]; exact ⟨rfl, h.2.1, h.2.2⟩
  · left
    have hno : ∀ d, op ≠ Op.sendControl d := fun d h => hs ⟨d, h⟩
    exact ⟨acceptedWriteTimes_none _ _ (fun v => step_no_write b e s op hno v true),
      step_lastNotification_unchanged b e s op hno h2⟩

/-- The `unsigned long` difference of two wrapped clock readings is the elapsed
time modulo `2^32`. -/
theorem ulSub_millis (t1 t2 : Nat) (h : t1 ≤ t2) :
    ulSub (t2 % UL_MOD) (t1 % UL_MOD) = (t2 - t1) % UL_MOD := by
  simp only [ulSub, UL_MOD]
  omega

theorem gate_open_elapsed (t1 t2 : Nat) (h : t1 ≤ t2)
    (hg : MIN_NOTIFICATION_INTERVAL ≤ ulSub (t2 % UL_MOD) (t1 % UL_MOD)) :
    t1 + MIN_NOTIFICATION_INTERVAL ≤ t2 := by
  rw [ulSub_millis t1 t2 h] at hg
  have := Nat.mod_le (t2 - t1) UL_MOD
  omega

/-- After a write at clock value `L`, the accepted writes of a disconnect-free
sequence come no sooner than `L + 20` and are spaced. -/
theorem run_writes_spaced_after (b : Backend) (seg : List (Env × Op)) :
    ∀ (s : Controller) (L : Nat), TimesOrdered seg → (∀ x ∈ seg, x.2 ≠ Op.onDisconnect) →
      s._lastNotificationTime = L % UL_MOD → (∀ x ∈ seg, L ≤ x.1.now) →
      (∀ t ∈ acceptedWriteTimes (run b s seg).2, L + MIN_NOTIFICATION_INTERVAL ≤ t) ∧
        WritesSpaced (acceptedWriteTimes (run b s seg).2) := by
  induction seg with
  | nil =>
    intro s L _ _ _ _
    exact ⟨fun t ht => by simp [run, acceptedWriteTimes] at ht, List.Pairwise.nil⟩
  | cons x rest ih =>
    obtain ⟨e, op⟩ := x
    intro s L hord hnd hL hlow
    have hp := List.pairwise_cons.1 hord
    have hle : L ≤ e.now := hlow (e, op) (List.mem_cons_self _ _)
    have hnd2 : ∀ y ∈ rest, y.2 ≠ Op.onDisconnect :=
      fun y hy => hnd y (List.mem_cons_of_mem _ hy)
    rw [run_cons, acceptedWriteTimes_append]
    rcases step_write_outcome b e s op (hnd (e, op) (List.mem_cons_self _ _)) with h | h
    · rw [h.1, List.nil_append]
      exact ih (step b e s op).1 L hp.2 hnd2 (by rw [h.2]; exact hL)
        (fun y hy => hlow y (List.mem_cons_of_mem _ hy))
    · have hrec := ih (step b e s op).1 e.now hp.2 hnd2 h.2.1 (fun y hy => hp.1 y hy)
      have hgap : L + MIN_NOTIFICATION_INTERVAL ≤ e.now := by
        have h3 := h.2.2
        rw [hL] at h3
        exact gate_open_elapsed L e.now hle h3
      rw [h.1]
      constructor
      · intro t ht
        simp only [List.singleton_append, List.mem_cons] at ht
        rcases ht with rfl | ht
        · exact hgap
        · have := hrec.1 t ht
          omega
      · exact List.pairwise_cons.2 ⟨fun t ht => hrec.1 t ht, hrec.2⟩

theorem run_writes_spaced (b : Backend) (seg : List (Env × Op)) :
    ∀ s : Controller, TimesOrdered seg → (∀ x ∈ seg, x.2 ≠ Op.onDisconnect) →
      WritesSpaced (acceptedWriteTimes (run b s seg).2) := by
  induction seg with
  | nil => intro s _ _; exact List.Pairwise.nil
  | cons x rest ih =>
    obtain ⟨e, op⟩ := x
    intro s hord hnd
    have hp := List.pairwise_cons.1 hord
    have hnd2 : ∀ y ∈ rest, y.2 ≠ Op.onDisconnect :=
      fun y hy => hnd y (List.mem_cons_of_mem _ hy)
    rw [run_cons, acceptedWriteTimes_append]
    rcases step_write_outcome b e s op (hnd (e, op) (List.mem_cons_self _ _)) with h | h
    · rw [h.1, List.nil_append]
      exact ih _ hp.2 hnd2
    · have hrec := run_writes_spaced_after b rest (step b e s op).1 e.now hp.2 hnd2 h.2.1
        (fun y hy => hp.1 y hy)
      rw [h.1]
      exact List.pairwise_cons.2 ⟨fun t ht => hrec.1 t ht, hrec.2⟩

/-- C4, as stated, fails: on either backend a write at 100 ms, a disconnect at
101 ms (which zeroes `_lastNotificationTime`), a reconnect at 102 ms and a
`sendControl` at 103 ms give two accepted writes 3 ms apart, with or without the
configuration and `begin` calls in front. -/
theorem writes_three_ms_apart_across_reconnect :
    TimesOrdered (startTrace ++ reconnectTrace) ∧
    acceptedWriteTimes (run Backend.nimble construct reconnectTrace).2 = [100, 103] ∧
    acceptedWriteTimes (run Backend.nimble construct (startTrace ++ reconnectTrace)).2
      = [100, 103] ∧
    acceptedWriteTimes (run Backend.arduinoBLE construct (startTrace ++ reconnectTrace)).2
      = [100, 103] ∧
    ¬ WritesSpaced (acceptedWriteTimes (run Backend.nimble construct reconnectTrace).2) ∧
    ¬ WritesSpaced
      (acceptedWriteTimes (run Backend.arduinoBLE construct (startTrace ++ reconnectTrace)).2) := by
  refine ⟨by decide, by decide, by decide, by decide, by decide, by decide⟩

/-- C4, amended: in any sequence of calls and events run from the constructed
state at non-decreasing clock values, the accepted writes made in a stretch that
contains no disconnect event are pairwise at least 20 ms apart, whatever came
before the stretch. -/
theorem writes_spaced_without_disconnect (b : Backend) (pre seg : List (Env × Op))
    (hord : TimesOrdered (pre ++ seg))
    (hnd : ∀ x ∈ seg, x.2 ≠ Op.onDisconnect) :
    WritesSpaced (acceptedWriteTimes (run b (run b construct pre).1 seg).2) ∧
    (run b construct (pre ++ seg)).2 =
      (run b construct pre).2 ++ (run b (run b construct pre).1 seg).2 := by
  have hp := List.pairwise_append.1 hord
  exact ⟨run_writes_spaced b seg _ hp.2.1 hnd, by rw [run_append]⟩

theorem writes_spaced_without_disconnect_witness :
    acceptedWriteTimes
      (run Backend.arduinoBLE (run Backend.arduinoBLE construct reconnectTrace).1 playTrace).2
      = [123, 143] ∧
    WritesSpaced (acceptedWriteTimes
      (run Backend.arduinoBLE (run Backend.arduinoBLE construct reconnectTrace).1 playTrace).2) :=
  ⟨by decide,
   (writes_spaced_without_disconnect Backend.arduinoBLE reconnectTrace playTrace
      (by decide) (by decide)).1⟩

/-! ## Connection events -/

/-- C5: the disconnect handler of either backend leaves `_deviceConnected`,
`_handshakeComplete`, `_connectionStartTime`, `_lastSentValue`, `_valueChanged` and
`_lastNotificationTime` at the constructor's values (false, false, 0, 0, false, 0)
and changes no other member: controller number, LED pin, debug flag, RSSI
threshold, identifiers and `_serviceStarted` are as before. -/
theorem disconnect_restores_defaults (b : Backend) (s : Controller) :
    (onDisconnect b s).1 =
      { s with
        _deviceConnected := false
        _handshakeComplete := false
        _connectionStartTime := 0
        _lastSentValue := NEUTRAL
        _valueChanged := false
        _lastNotificationTime := 0 } ∧
    (onDisconnect b s).1._deviceConnected = construct._deviceConnected ∧
    (onDisconnect b s).1._handshakeComplete = construct._handshakeComplete ∧
    (onDisconnect b s).1._connectionStartTime = construct._connectionStartTime ∧
    (onDisconnect b s).1._lastSentValue = construct._lastSentValue ∧
    (onDisconnect b s).1._valueChanged = construct._valueChanged ∧
    (onDisconnect b s).1._lastNotificationTime = construct._lastNotificationTime ∧
    (onDisconnect b s).1._controllerNumber = s._controllerNumber ∧
    (onDisconnect b s).1._statusLedPin = s._statusLedPin ∧
    (onDisconnect b s).1._debug = s._debug ∧
    (onDisconnect b s).1._rssiThreshold = s._rssiThreshold ∧
    (onDisconnect b s).1._serviceUuid = s._serviceUuid ∧
    (onDisconnect b s).1._characteristicUuid = s._characteristicUuid ∧
    (onDisconnect b s).1._serviceStarted = s._serviceStarted ∧
    (ServerCallbacks_onDisconnect s).1 = (onBLEDisconnected s).1 := by
  cases b <;>
    simp [onDisconnect, ServerCallbacks_onDisconnect, onBLEDisconnected, resetState,
      construct, NEUTRAL]

theorem onWritten_eq (b : Backend) (s : Controller) (v : Nat) :
    onWritten b s v = if v = 3 then { s with _handshakeComplete := true } else s := by
  have h : ((v : Int) = HANDSHAKE) ↔ v = 3 := by
    simp only [HANDSHAKE]; omega
  cases b <;>
    simp only [onWritten, CharacteristicCallbacks_onWrite, onCharacteristicWritten, h]

/-- C6: over every call and event, `_handshakeComplete` goes from false to true only
in the characteristic-written handler with the byte 3, and from true to false
only in the disconnect or the connect handler; `updateLED` keeps it; the
characteristic-written handler with any other byte returns the controller
unchanged, and with the byte 3 it sets the flag. -/
theorem handshake_flag_transitions (b : Backend) (e : Env) (s : Controller) (op : Op) :
    (s._handshakeComplete = false → (step b e s op).1._handshakeComplete = true →
      op = Op.onCharacteristicWritten 3) ∧
    (s._handshakeComplete = true → (step b e s op).1._handshakeComplete = false →
      op = Op.onDisconnect ∨ op = Op.onConnect) ∧
    (updateLED b e s).1._handshakeComplete = s._handshakeComplete ∧
    (∀ v : Nat, v ≠ 3 → onWritten b s v = s) ∧
    (onWritten b s 3)._handshakeComplete = true := by
  refine ⟨?_, ?_, ?_, ?_, ?_⟩
  · intro hf ht
    by_cases hw : ∃ w, op = Op.onCharacteristicWritten w
    · obtain ⟨w, rfl⟩ := hw
      simp only [step, onWritten_eq] at ht
      by_cases h3 : w = 3
      · rw [h3]
      · rw [if_neg h3, hf] at ht
        exact absurd ht (by decide)
    · have := step_handshake_stays_false b e s op hf (fun w h => hw ⟨w, h⟩)
      rw [this] at ht
      exact absurd ht (by decide)
  · intro ht hf
    cases op with
    | onDisconnect => exact Or.inl rfl
    | onConnect => exact Or.inr rfl
    | sendControl d =>
      simp only [step] at hf; rw [(sendControl_keeps_flags b e s d).1, ht] at hf
      exact absurd hf (by decide)
    | beginDefault =>
      simp only [step, beginDefault] at hf
      rw [(beginNamed_session b e s _).1, ht] at hf
      exact absurd hf (by decide)
    | beginNamed name =>
      simp only [step] at hf
      rw [(beginNamed_session b e s _).1, ht] at hf
      exact absurd hf (by decide)
    | update =>
      simp only [step, update_state] at hf
      rw [updateLED_frame] at hf
      simp only [] at hf
      rw [ht] at hf
      exact absurd hf (by decide)
    | setStatusLED pin => simp [step, setStatusLED, ht] at hf
    | setControllerNumber n => simp [step, setControllerNumber, ht] at hf
    | setDebug d => simp [step, setDebug, ht] at hf
    | setRSSIThreshold d => simp [step, setRSSIThreshold, ht] at hf
    | onCharacteristicWritten w =>
      simp only [step, onWritten_eq] at hf
      by_cases h3 : w = 3
      · rw [if_pos h3] at hf; exact absurd hf (Bool.noConfusion)
      · rw [if_neg h3, ht] at hf; exact absurd hf (by decide)
  · rw [updateLED_frame]
  · intro v hv
    rw [onWritten_eq, if_neg hv]
  · rw [onWritten_eq]; rfl

/-- C7: the connect handler sets `_deviceConnected` to true, `_handshakeComplete` to
false, `_lastSentValue` to 3 (HANDSHAKE), `_valueChanged` to true and
`_connectionStartTime` to the value of `millis()`, and changes no other member
(`_lastNotificationTime` in particular); the NimBLE and the ArduinoBLE handler
give the same controller and make the same calls. -/
theorem connect_starts_handshake (b : Backend) (e : Env) (s : Controller) :
    (onConnect b e s).1 =
      { s with
        _deviceConnected := true
        _handshakeComplete := false
        _lastSentValue := 3
        _valueChanged := true
        _connectionStartTime := millis e } ∧
    (onConnect b e s).1._lastNotificationTime = s._lastNotificationTime ∧
    (e.now < UL_MOD → (onConnect b e s).1._connectionStartTime = e.now) ∧
    ServerCallbacks_onConnect e s = onBLEConnected e s := by
  refine ⟨?_, ?_, ?_, rfl⟩
  · cases b <;> rfl
  · cases b <;> rfl
  · intro h
    cases b <;>
      simp [onConnect, ServerCallbacks_onConnect, onBLEConnected, millis_of_lt e h]

theorem step_keeps_serviceStarted (b : Backend) (e : Env) (s : Controller) (op : Op)
    (h : s._serviceStarted = true) : (step b e s op).1._serviceStarted = true := by
  cases op with
  | sendControl d => simp only [step]; rw [(sendControl_keeps_flags b e s d).2.1]; exact h
  | beginDefault =>
    simp only [step, beginDefault]; exact (beginNamed_session b e s _).2.2.2.2.2.2 h
  | beginNamed name => simp only [step]; exact (beginNamed_session b e s _).2.2.2.2.2.2 h
  | update => simp only [step, update_state]; rw [updateLED_frame]; exact h
  | onConnect =>
    cases b <;> simpa [step, onConnect, ServerCallbacks_onConnect, onBLEConnected] using h
  | onDisconnect =>
    cases b <;>
      simpa [step, onDisconnect, ServerCallbacks_onDisconnect, onBLEDisconnected,
        resetState] using h
  | setStatusLED pin => simpa [step, setStatusLED] using h
  | setControllerNumber n => simpa [step, setControllerNumber] using h
  | setDebug d => simpa [step, setDebug] using h
  | setRSSIThreshold d => simpa [step, setRSSIThreshold] using h
  | onCharacteristicWritten w =>
    simp only [step, onWritten_eq]
    split_ifs
    · exact h
    · exact h

theorem run_keeps_serviceStarted (b : Backend) (tr : List (Env × Op)) :
    ∀ s : Controller, s._serviceStarted = true → (run b s tr).1._serviceStarted = true := by
  induction tr with
  | nil => intro s h; exact h
  | cons x rest ih =>
    obtain ⟨e, op⟩ := x
    intro s h
    rw [run_cons]
    exact ih _ (step_keeps_serviceStarted b e s op h)

theorem beginNamed_true_started (b : Backend) (e : Env) (s : Controller) (name : String)
    (h : (beginNamed b e s name).1 = true) :
    (beginNamed b e s name).2.1._serviceStarted = true := by
  by_cases hbad : s._controllerNumber < 1 ∨ s._controllerNumber > 242
  · simp [beginNamed, hbad] at h
  · cases b
    · simp [beginNamed, hbad]
    · by_cases hb : (bleBeginRetry e.beginResults 0 3).1 = true
      · simp [beginNamed, hbad, hb]
      · simp [beginNamed, hbad, hb] at h

/-- C8: from any state reached after a successful `begin`, the events disconnect,
connect, characteristic written with 3 lead to a state where `isReady()` and
`isConnected()` are true whenever the transport reports the central connected
and subscribed; after disconnect and connect alone `isReady()` is false. -/
theorem reconnect_handshake_reaches_ready (b : Backend) (e0 e1 e2 e3 e : Env)
    (s0 : Controller) (name : String) (tr : List (Env × Op))
    (hbegin : (beginNamed b e0 s0 name).1 = true)
    (hconn : e.bleConnected = true) (hsub : e.subscribed = true) :
    isReady b e (run b (run b (beginNamed b e0 s0 name).2.1 tr).1
      [(e1, Op.onDisconnect), (e2, Op.onConnect), (e3, Op.onCharacteristicWritten 3)]).1
      = true ∧
    isConnected b e (run b (run b (beginNamed b e0 s0 name).2.1 tr).1
      [(e1, Op.onDisconnect), (e2, Op.onConnect), (e3, Op.onCharacteristicWritten 3)]).1
      = true ∧
    isReady b e (run b (run b (beginNamed b e0 s0 name).2.1 tr).1
      [(e1, Op.onDisconnect), (e2, Op.onConnect)]).1 = false := by
  have hs := run_keeps_serviceStarted b tr _ (beginNamed_true_started b e0 s0 name hbegin)
  generalize (run b (beginNamed b e0 s0 name).2.1 tr).1 = s at hs
  cases b <;>
    simp [run, step, onDisconnect, onConnect, onWritten_eq, ServerCallbacks_onDisconnect,
      ServerCallbacks_onConnect, onBLEDisconnected, onBLEConnected, resetState, isReady,
      isConnected, hs, hconn, hsub]

theorem reconnect_handshake_reaches_ready_witness :
    isReady Backend.arduinoBLE (envAt 400)
      (run Backend.arduinoBLE
        (run Backend.arduinoBLE (beginNamed Backend.arduinoBLE (envAt 0)
          (setControllerNumber construct 5) "pong").2.1 reconnectTrace).1
        [(envAt 200, Op.onDisconnect), (envAt 300, Op.onConnect),
         (envAt 350, Op.onCharacteristicWritten 3)]).1 = true :=
  (reconnect_handshake_reaches_ready Backend.arduinoBLE (envAt 0) (envAt 200) (envAt 300)
    (envAt 350) (envAt 400) (setControllerNumber construct 5) "pong" reconnectTrace
    (by decide) (by decide) (by decide)).1

/-! ## Handshake timeout -/

theorem updateLED_isConnected (b : Backend) (e e2 : Env) (s : Controller) :
    isConnected b e2 (updateLED b e s).1 = isConnected b e2 s := by
  rw [updateLED_frame]
  cases b <;> rfl

/-- The calls of `update()`: the poll (ArduinoBLE), those of `updateLED`, then the
disconnect request when the timeout test succeeds. -/
theorem update_effects (b : Backend) (e : Env) (s : Controller) :
    (update b e s).2 =
      (match b with
        | Backend.nimble => []
        | Backend.arduinoBLE => [Effect.poll]) ++ (updateLED b e s).2 ++
      (if isConnected b e s = true ∧ s._handshakeComplete = false ∧
          HANDSHAKE_TIMEOUT < ulSub (millis e) s._connectionStartTime
        then [Effect.disconnect] else []) := by
  have h1 := updateLED_isConnected b e e s
  have h2 : (updateLED b e s).1._handshakeComplete = s._handshakeComplete := by
    rw [updateLED_frame]
  have h3 : (updateLED b e s).1._connectionStartTime = s._connectionStartTime := by
    rw [updateLED_frame]
  simp only [update, h1, h2, h3]
  congr 1
  by_cases hc : isConnected b e s = true <;>
    by_cases hh : s._handshakeComplete = true <;>
    by_cases ht : HANDSHAKE_TIMEOUT < ulSub (millis e) s._connectionStartTime <;>
    simp [hc, hh, ht]

theorem update_disconnect_mem (b : Backend) (e : Env) (s : Controller) :
    Effect.disconnect ∈ (update b e s).2 ↔
      (isConnected b e s = true ∧ s._handshakeComplete = false ∧
        HANDSHAKE_TIMEOUT < ulSub (millis e) s._connectionStartTime) := by
  rw [update_effects]
  have hled : Effect.disconnect ∉ (updateLED b e s).2 := by
    intro h
    obtain ⟨_, _, h2⟩ := updateLED_effects b e s _ h
    cases h2
  constructor
  · intro h
    simp only [List.mem_append] at h
    rcases h with (h | h) | h
    · cases b <;> simp at h
    · exact absurd h hled
    · split_ifs at h with hc
      · exact hc
      · simp at h
  · intro h
    rw [if_pos h]
    simp

theorem disconnectRequests_append (l1 l2 : List (Nat × Effect)) :
    disconnectRequests (l1 ++ l2) = disconnectRequests l1 + disconnectRequests l2 := by
  simp [disconnectRequests, List.filter_append]

theorem disconnectRequests_none (t : Nat) (effs : List Effect)
    (h : Effect.disconnect ∉ effs) :
    disconnectRequests (effs.map fun x => (t, x)) = 0 := by
  simp only [disconnectRequests, List.length_eq_zero, List.filter_eq_nil_iff, List.mem_map]
  rintro p ⟨x, hx, rfl⟩
  simp only [decide_eq_true_eq]
  rintro rfl
  exact h hx

theorem update_disconnectRequests (b : Backend) (e : Env) (s : Controller) :
    disconnectRequests ((update b e s).2.map fun x => (e.now, x)) =
      if isConnected b e s = true ∧ s._handshakeComplete = false ∧
          HANDSHAKE_TIMEOUT < ulSub (millis e) s._connectionStartTime
        then 1 else 0 := by
  have hled : Effect.disconnect ∉ (updateLED b e s).2 := by
    intro h
    obtain ⟨_, _, h2⟩ := updateLED_effects b e s _ h
    cases h2
  have hpoll : Effect.disconnect ∉
      (match b with
        | Backend.nimble => ([] : List Effect)
        | Backend.arduinoBLE => [Effect.poll]) := by
    cases b <;> simp
  rw [update_effects, List.map_append, List.map_append, disconnectRequests_append,
    disconnectRequests_append, disconnectRequests_none _ _ hled,
    disconnectRequests_none _ _ hpoll]
  split_ifs <;> simp [disconnectRequests]

theorem run_updates_disconnectRequests (b : Backend) (envs : List Env) :
    ∀ s : Controller, s._handshakeComplete = false →
      (∀ e ∈ envs, isConnected b e s = true ∧
        HANDSHAKE_TIMEOUT < ulSub (millis e) s._connectionStartTime) →
      disconnectRequests (run b s (envs.map fun e => (e, Op.update))).2 = envs.length := by
  induction envs with
  | nil => intro s _ _; rfl
  | cons e rest ih =>
    intro s hh hall
    have he := hall e (List.mem_cons_self _ _)
    rw [List.map_cons, run_cons, disconnectRequests_append]
    simp only [step]
    rw [update_disconnectRequests, if_pos ⟨he.1, hh, he.2⟩, update_state]
    have hrec := ih (updateLED b e s).1 (by rw [updateLED_frame]; exact hh)
      (fun e2 h2 => by
        have := hall e2 (List.mem_cons_of_mem _ h2)
        rw [updateLED_isConnected]
        refine ⟨this.1, ?_⟩
        rw [updateLED_frame]
        exact this.2)
    rw [hrec, List.length_cons]
    omega

/-- C9, as stated, fails: with the handshake pending since 100 ms, `update()` at
5200 ms and again at 5210 ms each request the disconnect, two requests in all,
on either backend; the first call leaves the controller in the handshaking state. -/
theorem timeout_disconnect_requested_twice :
    disconnectRequests (run Backend.nimble (handshakingState Backend.nimble) timeoutTrace).2
      = 2 ∧
    disconnectRequests
      (run Backend.arduinoBLE (handshakingState Backend.arduinoBLE) timeoutTrace).2 = 2 ∧
    (run Backend.nimble (handshakingState Backend.nimble) timeoutTrace).2 =
      [(5200, Effect.disconnect), (5210, Effect.disconnect)] ∧
    isConnected Backend.nimble (envAt 5210)
      (run Backend.nimble (handshakingState Backend.nimble) [(envAt 5200, Op.update)]).1
      = true ∧
    (run Backend.nimble (handshakingState Backend.nimble)
      [(envAt 5200, Op.update)]).1._handshakeComplete = false := by
  refine ⟨by decide, by decide, by decide, by decide, by decide⟩

/-- C9, amended: while the handshake is incomplete, every `update()` call made with
the controller connected and more than 5000 ms past the connect requests the
disconnect, once per call, so a run of such calls makes as many requests as it
has calls; the first of them makes the request; after the disconnect handler
has run, `update()` makes no request while the connection is not reported
(always so on NimBLE). -/
theorem timeout_disconnect_each_update (b : Backend) (s : Controller) (envs : List Env)
    (e1 : Env)
    (hh : s._handshakeComplete = false)
    (hall : ∀ e ∈ e1 :: envs, isConnected b e s = true ∧
      HANDSHAKE_TIMEOUT < ulSub (millis e) s._connectionStartTime) :
    disconnectRequests (run b s ((e1 :: envs).map fun e => (e, Op.update))).2
      = envs.length + 1 ∧
    disconnectRequests (run b s [(e1, Op.update)]).2 = 1 ∧
    (∀ e2 : Env, isConnected b e2 (onDisconnect b s).1 = false →
      disconnectRequests (run b (onDisconnect b s).1 [(e2, Op.update)]).2 = 0) ∧
    (∀ e2 : Env,
      disconnectRequests (run Backend.nimble (onDisconnect Backend.nimble s).1
        [(e2, Op.update)]).2 = 0) := by
  have hone : ∀ (bb : Backend) (e2 : Env) (s2 : Controller),
      disconnectRequests (run bb s2 [(e2, Op.update)]).2 =
        if isConnected bb e2 s2 = true ∧ s2._handshakeComplete = false ∧
            HANDSHAKE_TIMEOUT < ulSub (millis e2) s2._connectionStartTime
          then 1 else 0 := by
    intro bb e2 s2
    rw [run_cons]
    simp only [step, run, List.append_nil]
    exact update_disconnectRequests bb e2 s2
  refine ⟨?_, ?_, ?_, ?_⟩
  · rw [run_updates_disconnectRequests b (e1 :: envs) s hh hall, List.length_cons]
  · have he := hall e1 (List.mem_cons_self _ _)
    rw [hone, if_pos ⟨he.1, hh, he.2⟩]
  · intro e2 hc
    rw [hone, if_neg]
    rintro ⟨h, _⟩
    rw [hc] at h
    exact absurd h (by decide)
  · intro e2
    rw [hone, if_neg]
    rintro ⟨h, _⟩
    simp [isConnected, onDisconnect, ServerCallbacks_onDisconnect, resetState] at h

theorem timeout_disconnect_each_update_witness :
    disconnectRequests (run Backend.nimble (handshakingState Backend.nimble)
      ([envAt 5200, envAt 5210, envAt 5220].map fun e => (e, Op.update))).2 = 3 :=
  (timeout_disconnect_each_update Backend.nimble (handshakingState Backend.nimble)
    [envAt 5210, envAt 5220] (envAt 5200) (by decide) (by decide)).1

/-- C10: `update()` requests a transport disconnect exactly when `isConnected()` is
true, `_handshakeComplete` is false and the `unsigned long` difference
`millis() - _connectionStartTime` exceeds 5000; with the clock at or past the
connect time (and below its wrap) that difference is the elapsed time; at
exactly 5000 ms elapsed, with the handshake complete, or with no connection,
no disconnect is requested, whatever the time. -/
theorem update_disconnects_iff_timeout (b : Backend) (e : Env) (s : Controller) :
    (Effect.disconnect ∈ (update b e s).2 ↔
      (isConnected b e s = true ∧ s._handshakeComplete = false ∧
        ulSub (millis e) s._connectionStartTime > 5000)) ∧
    (s._connectionStartTime ≤ e.now → e.now < UL_MOD →
      ulSub (millis e) s._connectionStartTime = e.now - s._connectionStartTime) ∧
    (s._connectionStartTime ≤ e.now → e.now < UL_MOD →
      (Effect.disconnect ∈ (update b e s).2 ↔
        (isConnected b e s = true ∧ s._handshakeComplete = false ∧
          e.now - s._connectionStartTime > 5000))) ∧
    (e.now < UL_MOD → e.now = s._connectionStartTime + 5000 →
      Effect.disconnect ∉ (update b e s).2) ∧
    (s._handshakeComplete = true → Effect.disconnect ∉ (update b e s).2) ∧
    (isConnected b e s = false → Effect.disconnect ∉ (update b e s).2) := by
  have hsub : s._connectionStartTime ≤ e.now → e.now < UL_MOD →
      ulSub (millis e) s._connectionStartTime = e.now - s._connectionStartTime := by
    intro h1 h2
    rw [millis_of_lt e h2, ulSub_of_le _ _ h1 h2]
  refine ⟨update_disconnect_mem b e s, hsub, ?_, ?_, ?_, ?_⟩
  · intro h1 h2
    rw [update_disconnect_mem, hsub h1 h2]
    rfl
  · intro h2 h1
    rw [update_disconnect_mem, hsub (by omega) h2]
    rintro ⟨_, _, h⟩
    simp only [HANDSHAKE_TIMEOUT] at h
    omega
  · intro hh
    rw [update_disconnect_mem]
    rintro ⟨_, h, _⟩
    rw [hh] at h
    exact absurd h (by decide)
  · intro hc
    rw [update_disconnect_mem]
    rintro ⟨h, _⟩
    rw [hc] at h
    exact absurd h (by decide)

/-! ## `sendControl` in closed form -/

theorem sendControl_blocked (b : Backend) (e : Env) (s : Controller) (d : Int)
    (h : passesConnectionCheck b e s = false) : sendControl b e s d = (s, []) := by
  cases b <;> simp_all [sendControl, passesConnectionCheck]

/-- Result of `sendControl` once the connection test is passed. -/
theorem sendControl_eq (b : Backend) (e : Env) (s : Controller) (d : Int)
    (h : passesConnectionCheck b e s = true) :
    sendControl b e s d =
      if pendingAfterCompare s d = true ∧ gateOpen e s = true then
        if writeAccepted b e = true then
          ({ s with
              _lastSentValue := valueToSend s d
              _lastNotificationTime := millis e
              _valueChanged := false },
            [Effect.write (toByte (valueToSend s d)) true])
        else ({ s with _valueChanged := true }, [Effect.write (toByte (valueToSend s d)) false])
      else ({ s with _valueChanged := pendingAfterCompare s d }, []) := by
  obtain ⟨cn, pin, dbg, thr, ps, svc, ch, adv, su, cu, ss, hc, led, lsv, vc, dc, llt, lnt, cst⟩ := s
  cases b <;> cases vc <;>
    by_cases hv : (if hc = true then validated d else HANDSHAKE) = lsv <;>
    by_cases hg : MIN_NOTIFICATION_INTERVAL ≤ ulSub (millis e) lnt <;>
    cases hw : e.writeOk <;>
    simp_all [sendControl, passesConnectionCheck, pendingAfterCompare, gateOpen,
      writeAccepted, valueToSend, validated]

/-! ## Direction validation -/

theorem validated_range (d : Int) : validated d = 0 ∨ validated d = 1 ∨ validated d = 2 := by
  unfold validated NEUTRAL
  split_ifs <;> omega

theorem toByte_valueToSend (s : Controller) (d : Int) :
    (toByte (valueToSend s d) : Int) = valueToSend s d ∧
    (toByte (valueToSend s d) = 0 ∨ toByte (valueToSend s d) = 1 ∨
      toByte (valueToSend s d) = 2 ∨ toByte (valueToSend s d) = 3) ∧
    (s._handshakeComplete = true → toByte (valueToSend s d) = toByte (validated d) ∧
      toByte (valueToSend s d) ≠ 3) := by
  unfold valueToSend
  rcases validated_range d with h | h | h <;> cases s._handshakeComplete <;>
    simp [h, HANDSHAKE, toByte]

theorem sendControl_write_value (b : Backend) (e : Env) (s : Controller) (d : Int)
    (v : Nat) (acc : Bool) (hx : Effect.write v acc ∈ (sendControl b e s d).2) :
    v = toByte (valueToSend s d) := by
  rcases sendControl_outcome b e s d with h | h | h
  · rw [h.1] at hx; simp at hx
  · rw [h.1] at hx; simp at hx; exact hx.1
  · rw [h.1] at hx; simp at hx; exact hx.1

/-- C11: a direction below 0 or above 2 (3 included) makes `sendControl` return the
same controller and the same calls as `sendControl(NEUTRAL)`; once the handshake
is complete no direction, valid or not, makes `sendControl` write 3 (an invalid
one writes 0 if anything); and every value `sendControl` writes is 0, 1, 2 or 3. -/
theorem invalid_direction_sent_as_neutral (b : Backend) (e : Env) (s : Controller)
    (d : Int) (hd : d < 0 ∨ d > 2) :
    sendControl b e s d = sendControl b e s NEUTRAL ∧
    (s._handshakeComplete = true →
      ∀ v acc, Effect.write v acc ∈ (sendControl b e s d).2 → v = 0) ∧
    (∀ d2 : Int, s._handshakeComplete = true →
      ∀ v acc, Effect.write v acc ∈ (sendControl b e s d2).2 → v = 0 ∨ v = 1 ∨ v = 2) ∧
    (∀ (d2 : Int) (v : Nat) (acc : Bool), Effect.write v acc ∈ (sendControl b e s d2).2 →
      v = 0 ∨ v = 1 ∨ v = 2 ∨ v = 3) := by
  have hval : validated d = 0 := by simp [validated, hd, NEUTRAL]
  refine ⟨?_, ?_, ?_, ?_⟩
  · simp [sendControl, hd, NEUTRAL]
  · intro hh v acc hx
    rw [sendControl_write_value b e s d v acc hx, ((toByte_valueToSend s d).2.2 hh).1, hval]
    rfl
  · intro d2 hh v acc hx
    have hv := sendControl_write_value b e s d2 v acc hx
    have h1 := (toByte_valueToSend s d2).2.1
    have h2 := ((toByte_valueToSend s d2).2.2 hh).2
    rw [← hv] at h1 h2
    rcases h1 with h | h | h | h
    · exact Or.inl h
    · exact Or.inr (Or.inl h)
    · exact Or.inr (Or.inr h)
    · exact absurd h h2
  · intro d2 v acc hx
    rw [sendControl_write_value b e s d2 v acc hx]
    exact (toByte_valueToSend s d2).2.1

theorem invalid_direction_sent_as_neutral_witness :
    sendControl Backend.arduinoBLE (envAt 143)
        (run Backend.arduinoBLE (run Backend.arduinoBLE construct reconnectTrace).1 playTrace).1
        3 =
      sendControl Backend.arduinoBLE (envAt 143)
        (run Backend.arduinoBLE (run Backend.arduinoBLE construct reconnectTrace).1 playTrace).1
        NEUTRAL ∧
    (sendControl Backend.arduinoBLE (envAt 170)
        (run Backend.arduinoBLE (run Backend.arduinoBLE construct reconnectTrace).1 playTrace).1
        3).2 = [Effect.write 0 true] :=
  ⟨(invalid_direction_sent_as_neutral Backend.arduinoBLE (envAt 143)
      (run Backend.arduinoBLE (run Backend.arduinoBLE construct reconnectTrace).1 playTrace).1
      3 (by decide)).1,
   by decide⟩

/-! ## Rejected writes -/

theorem sendControl_rejected_inv (b : Backend) (e : Env) (s : Controller) (d : Int)
    (v : Nat) (hrej : (sendControl b e s d).2 = [Effect.write v false]) :
    passesConnectionCheck b e s = true ∧ gateOpen e s = true ∧
      writeAccepted b e = false ∧ v = toByte (valueToSend s d) ∧
      (sendControl b e s d).1 = { s with _valueChanged := true } := by
  by_cases hp : passesConnectionCheck b e s = true
  · rw [sendControl_eq b e s d hp] at hrej ⊢
    by_cases hc : pendingAfterCompare s d = true ∧ gateOpen e s = true
    · rw [if_pos hc] at hrej ⊢
      by_cases hw : writeAccepted b e = true
      · rw [if_pos hw] at hrej; simp at hrej
      · rw [if_neg hw] at hrej ⊢
        simp at hrej
        exact ⟨hp, hc.2, by simpa using hw, hrej.symm, rfl⟩
    · rw [if_neg hc] at hrej; simp at hrej
  · rw [sendControl_blocked b e s d (by simpa using hp)] at hrej
    simp at hrej

theorem gate_stays_open (L t1 t2 : Nat) (h1 : L ≤ t1) (h2 : t1 ≤ t2) (h3 : t2 < L + UL_MOD)
    (hg : MIN_NOTIFICATION_INTERVAL ≤ ulSub (t1 % UL_MOD) (L % UL_MOD)) :
    MIN_NOTIFICATION_INTERVAL ≤ ulSub (t2 % UL_MOD) (L % UL_MOD) := by
  rw [ulSub_millis L t1 h1] at hg
  rw [ulSub_millis L t2 (le_trans h1 h2)]
  have ha := Nat.mod_le (t1 - L) UL_MOD
  have hb : (t2 - L) % UL_MOD = t2 - L := Nat.mod_eq_of_lt (by omega)
  omega

/-- C12: when `sendControl` attempts a write and the transport refuses it (possible
on ArduinoBLE only), the controller afterwards is the one before with
`_valueChanged` true: `_lastSentValue` and `_lastNotificationTime` are as
before.  The next `sendControl` with the same direction that passes the
connection test with the interval test open attempts the same value again; the
interval test is open at the same clock value, and at any later one less than
`2^32` ms past the last notification.  The call returns nothing to its caller. -/
theorem rejected_write_retried (b : Backend) (e e2 : Env) (s : Controller) (d : Int)
    (v : Nat) (hrej : (sendControl b e s d).2 = [Effect.write v false]) :
    b = Backend.arduinoBLE ∧ e.writeOk = false ∧
    (sendControl b e s d).1 = { s with _valueChanged := true } ∧
    (sendControl b e s d).1._lastSentValue = s._lastSentValue ∧
    (sendControl b e s d).1._lastNotificationTime = s._lastNotificationTime ∧
    (sendControl b e s d).1._valueChanged = true ∧
    v = toByte (valueToSend s d) ∧
    (passesConnectionCheck b e2 (sendControl b e s d).1 = true →
      gateOpen e2 (sendControl b e s d).1 = true →
      (sendControl b e2 (sendControl b e s d).1 d).2 = [Effect.write v (writeAccepted b e2)]) ∧
    (millis e2 = millis e → gateOpen e2 (sendControl b e s d).1 = true) ∧
    (∀ L : Nat, s._lastNotificationTime = L % UL_MOD → L ≤ e.now → e.now ≤ e2.now →
      e2.now < L + UL_MOD → gateOpen e2 (sendControl b e s d).1 = true) := by
  obtain ⟨hp, hg, hw, hv, hst⟩ := sendControl_rejected_inv b e s d v hrej
  have hb : b = Backend.arduinoBLE ∧ e.writeOk = false := by
    cases b
    · simp [writeAccepted] at hw
    · exact ⟨rfl, by simpa [writeAccepted] using hw⟩
  refine ⟨hb.1, hb.2, hst, by rw [hst], by rw [hst], by rw [hst], hv, ?_, ?_, ?_⟩
  · intro hp2 hg2
    rw [sendControl_eq b e2 _ d hp2]
    have hpend : pendingAfterCompare (sendControl b e s d).1 d = true := by
      rw [hst]; simp [pendingAfterCompare]
    have hval : valueToSend (sendControl b e s d).1 d = valueToSend s d := by
      rw [hst]; rfl
    rw [if_pos ⟨hpend, hg2⟩, hval, hv]
    cases writeAccepted b e2 <;> simp
  · intro hm
    rw [hst]
    simp only [gateOpen, hm] at hg ⊢
    exact hg
  · intro L hL h1 h2 h3
    rw [hst]
    simp only [gateOpen, decide_eq_true_eq, ge_iff_le, millis, hL] at hg ⊢
    exact gate_stays_open L e.now e2.now h1 h2 h3 hg

theorem rejected_write_retried_witness :
    (sendControl Backend.arduinoBLE (envRejecting 170)
      (run Backend.arduinoBLE (run Backend.arduinoBLE construct reconnectTrace).1 playTrace).1
      UP).2 = [Effect.write 1 false] ∧
    (sendControl Backend.arduinoBLE (envAt 171)
      (sendControl Backend.arduinoBLE (envRejecting 170)
        (run Backend.arduinoBLE (run Backend.arduinoBLE construct reconnectTrace).1 playTrace).1
        UP).1 UP).2 = [Effect.write 1 true] :=
  ⟨by decide,
   (rejected_write_retried Backend.arduinoBLE (envRejecting 170) (envAt 171)
      (run Backend.arduinoBLE (run Backend.arduinoBLE construct reconnectTrace).1 playTrace).1
      UP 1 (by decide)).2.2.2.2.2.2.2.1 (by decide) (by decide)⟩

/-! ## When `_lastSentValue` changes -/

theorem step_lastSent_unchanged (b : Backend) (e : Env) (s : Controller) (op : Op)
    (h1 : ∀ d, op ≠ Op.sendControl d) (h2 : op ≠ Op.onDisconnect) (h3 : op ≠ Op.onConnect) :
    (step b e s op).1._lastSentValue = s._lastSentValue := by
  cases op with
  | sendControl d => exact absurd rfl (h1 d)
  | onDisconnect => exact absurd rfl h2
  | onConnect => exact absurd rfl h3
  | beginDefault => simp only [step, beginDefault]; exact (beginNamed_session b e s _).2.1
  | beginNamed name => simp only [step]; exact (beginNamed_session b e s _).2.1
  | update => simp only [step, update_state]; rw [updateLED_frame]
  | setStatusLED pin => simp [step, setStatusLED]
  | setControllerNumber n => simp [step, setControllerNumber]
  | setDebug d => simp [step, setDebug]
  | setRSSIThreshold d => simp [step, setRSSIThreshold]
  | onCharacteristicWritten w =>
    simp only [step, onWritten_eq]
    split_ifs <;> rfl

theorem sendControl_lastSent (b : Backend) (e : Env) (s : Controller) (d : Int) :
    ((sendControl b e s d).1._lastSentValue = s._lastSentValue ∧
      ∀ v, Effect.write v true ∉ (sendControl b e s d).2) ∨
    ((sendControl b e s d).2 = [Effect.write (toByte (valueToSend s d)) true] ∧
      (sendControl b e s d).1._lastSentValue = valueToSend s d) := by
  by_cases hp : passesConnectionCheck b e s = true
  · rw [sendControl_eq b e s d hp]
    split_ifs
    · right; exact ⟨rfl, rfl⟩
    · left; exact ⟨rfl, by simp⟩
    · left; exact ⟨rfl, by simp⟩
  · rw [sendControl_blocked b e s d (by simpa using hp)]
    left; exact ⟨rfl, by simp⟩

/-- C13, as stated, fails: the connect handler moves `_lastSentValue` from 0 to 3
and the disconnect handler moves it back to 0, and neither writes to the
transport. -/
theorem lastSent_changed_without_write :
    ¬ LastSentOnlyAfterWrite Backend.arduinoBLE (envAt 100) construct Op.onConnect ∧
    ¬ LastSentOnlyAfterWrite Backend.nimble (envAt 100) construct Op.onConnect ∧
    ¬ LastSentOnlyAfterWrite Backend.nimble (envAt 200)
        (step Backend.nimble (envAt 100) construct Op.onConnect).1 Op.onDisconnect ∧
    (step Backend.nimble (envAt 100) construct Op.onConnect).1._lastSentValue = 3 ∧
    construct._lastSentValue = 0 ∧
    (step Backend.nimble (envAt 100) construct Op.onConnect).2 = [] ∧
    (step Backend.nimble (envAt 200)
      (step Backend.nimble (envAt 100) construct Op.onConnect).1 Op.onDisconnect).2
      = [Effect.advertise] := by
  refine ⟨?_, ?_, ?_, by decide, by decide, by decide, by decide⟩
  · intro h
    obtain ⟨v, hv, _⟩ := h (by decide)
    have hnil : (step Backend.arduinoBLE (envAt 100) construct Op.onConnect).2 = [] := by
      decide
    rw [hnil] at hv
    simp at hv
  · intro h
    obtain ⟨v, hv, _⟩ := h (by decide)
    have hnil : (step Backend.nimble (envAt 100) construct Op.onConnect).2 = [] := by
      decide
    rw [hnil] at hv
    simp at hv
  · intro h
    obtain ⟨v, hv, _⟩ := h (by decide)
    simp [step, onDisconnect, ServerCallbacks_onDisconnect] at hv

/-- C13, amended: a call or event that changes `_lastSentValue` is the connect
handler (new value 3), the disconnect handler (new value 0), or a
`sendControl` whose only call is an accepted write, the new value being the
one written; so `sendControl`, `update`, the characteristic-written handler,
`begin` and the setters change it only right after a successful write, and a
`sendControl` that makes no accepted write keeps it. -/
theorem lastSent_changes_classified (b : Backend) (e : Env) (s : Controller) (op : Op) :
    ((step b e s op).1._lastSentValue ≠ s._lastSentValue →
      (op = Op.onConnect ∧ (step b e s op).1._lastSentValue = HANDSHAKE) ∨
      (op = Op.onDisconnect ∧ (step b e s op).1._lastSentValue = NEUTRAL) ∨
      (∃ d, op = Op.sendControl d ∧
        (step b e s op).2 = [Effect.write (toByte (valueToSend s d)) true] ∧
        (step b e s op).1._lastSentValue = (toByte (valueToSend s d) : Int))) ∧
    (op ≠ Op.onConnect → op ≠ Op.onDisconnect → LastSentOnlyAfterWrite b e s op) ∧
    (∀ d v, Effect.write v true ∈ (sendControl b e s d).2 →
      (sendControl b e s d).1._lastSentValue = (v : Int)) ∧
    (∀ d, (∀ v, Effect.write v true ∉ (sendControl b e s d).2) →
      (sendControl b e s d).1._lastSentValue = s._lastSentValue) := by
  have hmain : (step b e s op).1._lastSentValue ≠ s._lastSentValue →
      (op = Op.onConnect ∧ (step b e s op).1._lastSentValue = HANDSHAKE) ∨
      (op = Op.onDisconnect ∧ (step b e s op).1._lastSentValue = NEUTRAL) ∨
      (∃ d, op = Op.sendControl d ∧
        (step b e s op).2 = [Effect.write (toByte (valueToSend s d)) true] ∧
        (step b e s op).1._lastSentValue = (toByte (valueToSend s d) : Int)) := by
    intro hne
    by_cases hc : op = Op.onConnect
    · left
      subst hc
      exact ⟨rfl, by cases b <;> rfl⟩
    · by_cases hd : op = Op.onDisconnect
      · right; left
        subst hd
        exact ⟨rfl, by cases b <;> rfl⟩
      · by_cases hs : ∃ d, op = Op.sendControl d
        · right; right
          obtain ⟨d, rfl⟩ := hs
          refine ⟨d, rfl, ?_⟩
          simp only [step] at hne ⊢
          rcases sendControl_lastSent b e s d with h | h
          · exact absurd h.1 hne
          · exact ⟨h.1, by rw [h.2, (toByte_valueToSend s d).1]⟩
        · exact absurd
            (step_lastSent_unchanged b e s op (fun d h => hs ⟨d, h⟩) hd hc) hne
  refine ⟨hmain, ?_, ?_, ?_⟩
  · intro hc hd hne
    rcases hmain hne with h | h | ⟨d, _, h2, h3⟩
    · exact absurd h.1 hc
    · exact absurd h.1 hd
    · exact ⟨_, by rw [h2]; simp, h3⟩
  · intro d v hx
    rcases sendControl_lastSent b e s d with h | h
    · exact absurd hx (h.2 v)
    · rw [h.1] at hx
      simp at hx
      rw [h.2, hx, (toByte_valueToSend s d).1]
  · intro d hno
    rcases sendControl_lastSent b e s d with h | h
    · exact h.1
    · exact absurd (by rw [h.1]; simp) (hno (toByte (valueToSend s d)))

/-! ## Sending in the ready state -/

theorem isReady_passes (b : Backend) (e : Env) (s : Controller)
    (h : isReady b e s = true) :
    passesConnectionCheck b e s = true ∧ s._handshakeComplete = true := by
  cases b <;> simp_all [isReady, passesConnectionCheck]

theorem sendControl_isReady (b : Backend) (e e2 : Env) (s : Controller) (d : Int) :
    isReady b e2 (sendControl b e s d).1 = isReady b e2 s := by
  obtain ⟨h1, h2, h3, _⟩ := sendControl_keeps_flags b e s d
  cases b <;> simp only [isReady, h1, h2, h3]

theorem valueToSend_ready (s : Controller) (d : Int)
    (hh : s._handshakeComplete = true) (hd : d = NEUTRAL ∨ d = UP ∨ d = DOWN) :
    valueToSend s d = d ∧ (toByte d : Int) = d := by
  rcases hd with rfl | rfl | rfl <;>
    simp [valueToSend, validated, hh, NEUTRAL, UP, DOWN, toByte]

/-- C14: in the ready state, for a direction 0, 1 or 2 with `_valueChanged` set or
the direction different from `_lastSentValue`, a `sendControl` made with the
interval test open (at least 20 ms on the `unsigned long` clock since
`_lastNotificationTime`) and a transport that takes the write makes exactly
one call, the write of that direction, and leaves `_lastSentValue` at the
direction, `_lastNotificationTime` at `millis()` and `_valueChanged` false,
every other member as before.  After connect and the handshake byte,
`sendControl(UP)` writes 1; in the scenario with a send before the handshake
the writes are 3, then 1 once the interval has passed. -/
theorem ready_send_transmits_direction (b : Backend) (e : Env) (s : Controller) (d : Int)
    (hready : isReady b e s = true)
    (hd : d = NEUTRAL ∨ d = UP ∨ d = DOWN)
    (hpend : s._valueChanged = true ∨ d ≠ s._lastSentValue)
    (hgate : ulSub (millis e) s._lastNotificationTime ≥ MIN_NOTIFICATION_INTERVAL)
    (hacc : writeAccepted b e = true) :
    sendControl b e s d =
      ({ s with
          _lastSentValue := d
          _lastNotificationTime := millis e
          _valueChanged := false },
        [Effect.write (toByte d) true]) ∧
    (toByte d : Int) = d ∧
    (sendControl b e s d).1._lastSentValue = d ∧
    (sendControl b e s d).1._lastNotificationTime = millis e ∧
    (sendControl b e s d).1._valueChanged = false ∧
    writtenValues (run b construct
      (startTrace ++ [(envAt 100, Op.onConnect), (envAt 110, Op.onCharacteristicWritten 3),
        (envAt 120, Op.sendControl UP)])).2 = [1] ∧
    writtenValues (run b construct (startTrace ++ handshakeThenUpTrace)).2 = [3, 1] ∧
    acceptedWriteTimes (run b construct (startTrace ++ handshakeThenUpTrace)).2
      = [110, 130] ∧
    isReady b (envAt 130) (run b construct (startTrace ++ handshakeThenUpTrace)).1 = true := by
  obtain ⟨hp, hh⟩ := isReady_passes b e s hready
  obtain ⟨hv, hb⟩ := valueToSend_ready s d hh hd
  have hpc : pendingAfterCompare s d = true := by
    rcases hpend with h | h
    · simp [pendingAfterCompare, h]
    · simp [pendingAfterCompare, hv, h]
  have hg : gateOpen e s = true := by simpa [gateOpen] using hgate
  have hsend : sendControl b e s d =
      ({ s with
          _lastSentValue := d
          _lastNotificationTime := millis e
          _valueChanged := false },
        [Effect.write (toByte d) true]) := by
    rw [sendControl_eq b e s d hp, if_pos ⟨hpc, hg⟩, if_pos hacc, hv]
  refine ⟨hsend, hb, by rw [hsend], by rw [hsend], by rw [hsend], ?_, ?_, ?_, ?_⟩ <;>
    cases b <;> decide

theorem ready_send_transmits_direction_witness :
    (sendControl Backend.arduinoBLE (envAt 170)
      (run Backend.arduinoBLE construct (startTrace ++ reconnectTrace ++ playTrace)).1
      NEUTRAL).2 = [Effect.write 0 true] :=
  (congrArg Prod.snd (ready_send_transmits_direction Backend.arduinoBLE (envAt 170)
    (run Backend.arduinoBLE construct (startTrace ++ reconnectTrace ++ playTrace)).1
    NEUTRAL (by decide) (by decide) (by decide) (by decide) (by decide)).1 :)

/-! ## Coalescing of direction changes inside one interval -/

theorem gateOpen_false_of (e : Env) (s : Controller) (L : Nat)
    (hL : s._lastNotificationTime = L % UL_MOD) (h1 : L ≤ e.now)
    (h2 : e.now < L + MIN_NOTIFICATION_INTERVAL) : gateOpen e s = false := by
  have h := ulSub_millis L e.now h1
  have hle := Nat.mod_le (e.now - L) UL_MOD
  simp only [gateOpen, millis, hL, h, decide_eq_false_iff_not, ge_iff_le, not_le]
  omega

theorem gateOpen_true_of (e : Env) (s : Controller) (L : Nat)
    (hL : s._lastNotificationTime = L % UL_MOD)
    (h1 : L + MIN_NOTIFICATION_INTERVAL ≤ e.now) (h2 : e.now < L + UL_MOD) :
    gateOpen e s = true := by
  have h := ulSub_millis L e.now (by omega)
  have hm : (e.now - L) % UL_MOD = e.now - L := Nat.mod_eq_of_lt (by omega)
  simp only [gateOpen, millis, hL, h, hm, decide_eq_true_eq, ge_iff_le]
  omega

theorem sendControl_gated (b : Backend) (e : Env) (s : Controller) (d : Int)
    (hp : passesConnectionCheck b e s = true) (hg : gateOpen e s = false) :
    sendControl b e s d = ({ s with _valueChanged := pendingAfterCompare s d }, []) := by
  rw [sendControl_eq b e s d hp, if_neg]
  simp [hg]

theorem sendControl_accepted_inv (b : Backend) (e : Env) (s : Controller) (d : Int)
    (v : Nat) (hacc : (sendControl b e s d).2 = [Effect.write v true]) :
    (sendControl b e s d).1 =
      { s with
        _lastSentValue := valueToSend s d
        _lastNotificationTime := millis e
        _valueChanged := false } := by
  by_cases hp : passesConnectionCheck b e s = true
  · rw [sendControl_eq b e s d hp] at hacc ⊢
    by_cases hc : pendingAfterCompare s d = true ∧ gateOpen e s = true
    · rw [if_pos hc] at hacc ⊢
      by_cases hw : writeAccepted b e = true
      · rw [if_pos hw]
      · rw [if_neg hw] at hacc; simp at hacc
    · rw [if_neg hc] at hacc; simp at hacc
  · rw [sendControl_blocked b e s d (by simpa using hp)] at hacc
    simp at hacc

/-- DOWN then UP, both inside the interval: nothing is written and a send is left
pending. -/
theorem down_up_gated (b : Backend) (e2 e3 : Env) (s1 : Controller) (L : Nat)
    (hr2 : isReady b e2 s1 = true) (hr3 : isReady b e3 s1 = true)
    (hL : s1._lastNotificationTime = L % UL_MOD) (h2 : L ≤ e2.now)
    (h23 : e2.now ≤ e3.now) (h3 : e3.now < L + MIN_NOTIFICATION_INTERVAL) :
    run b s1 [(e2, Op.sendControl DOWN), (e3, Op.sendControl UP)] =
      ({ s1 with _valueChanged := true }, []) := by
  obtain ⟨hp2, hh⟩ := isReady_passes b e2 s1 hr2
  have hg2 : gateOpen e2 s1 = false := gateOpen_false_of e2 s1 L hL h2 (by omega)
  have hs2 := sendControl_gated b e2 s1 DOWN hp2 hg2
  have hr3b : isReady b e3 (sendControl b e2 s1 DOWN).1 = true := by
    rw [sendControl_isReady]; exact hr3
  rw [hs2] at hr3b
  obtain ⟨hp3, hh3⟩ := isReady_passes b e3 _ hr3b
  have hg3 : gateOpen e3 { s1 with _valueChanged := pendingAfterCompare s1 DOWN } = false :=
    gateOpen_false_of e3 _ L hL (by omega) h3
  have hs3 := sendControl_gated b e3 _ UP hp3 hg3
  have hpend : pendingAfterCompare
      { s1 with _valueChanged := pendingAfterCompare s1 DOWN } UP = true := by
    have hv1 : valueToSend s1 DOWN = 2 := by simp [valueToSend, validated, hh, DOWN]
    have hv2 : ∀ p : Bool, valueToSend { s1 with _valueChanged := p } UP = 1 := by
      intro p; simp [valueToSend, validated, hh, UP]
    simp only [pendingAfterCompare, hv1, hv2]
    by_cases hl : (2 : Int) = s1._lastSentValue
    · simp [← hl]
    · simp [hl]
  simp only [run, step, hs2, hs3, hpend, List.map_nil, List.append_nil]

theorem run_upCalls_gated (b : Backend) (L : Nat) (envs : List Env) :
    ∀ s1 : Controller, (∀ e ∈ envs, isReady b e s1 = true) → s1._valueChanged = true →
      s1._lastNotificationTime = L % UL_MOD →
      (∀ e ∈ envs, L ≤ e.now ∧ e.now < L + MIN_NOTIFICATION_INTERVAL) →
      run b s1 (upCalls envs) = (s1, []) := by
  induction envs with
  | nil => intro s1 _ _ _ _; rfl
  | cons e rest ih =>
    intro s1 hr hvc hL ht
    obtain ⟨hp, _⟩ := isReady_passes b e s1 (hr e (List.mem_cons_self _ _))
    have hte := ht e (List.mem_cons_self _ _)
    have hg : gateOpen e s1 = false := gateOpen_false_of e s1 L hL hte.1 hte.2
    have hs := sendControl_gated b e s1 UP hp hg
    have hpend : pendingAfterCompare s1 UP = s1._valueChanged := by
      simp [pendingAfterCompare, hvc]
    rw [hpend] at hs
    have hrec := ih s1 (fun e2 h2 => hr e2 (List.mem_cons_of_mem _ h2)) hvc hL
      (fun e2 h2 => ht e2 (List.mem_cons_of_mem _ h2))
    simp only [upCalls, List.map_cons, run_cons, step]
    simp only [upCalls] at hrec
    rw [hs]
    simp only [List.map_nil, List.nil_append]
    exact hrec

theorem run_upCalls_idle (b : Backend) (envs : List Env) :
    ∀ s1 : Controller, (∀ e ∈ envs, isReady b e s1 = true) → s1._valueChanged = false →
      s1._lastSentValue = UP → run b s1 (upCalls envs) = (s1, []) := by
  induction envs with
  | nil => intro s1 _ _ _; rfl
  | cons e rest ih =>
    intro s1 hr hvc hls
    obtain ⟨hp, hh⟩ := isReady_passes b e s1 (hr e (List.mem_cons_self _ _))
    have hpend : pendingAfterCompare s1 UP = s1._valueChanged := by
      simp [pendingAfterCompare, hvc, valueToSend, validated, hh, UP, hls]
    have hs : sendControl b e s1 UP = (s1, []) := by
      rw [sendControl_eq b e s1 UP hp, if_neg (by simp [hpend, hvc]), hpend]
    have hrec := ih s1 (fun e2 h2 => hr e2 (List.mem_cons_of_mem _ h2)) hvc hls
    simp only [upCalls, List.map_cons, run_cons, step]
    simp only [upCalls] at hrec
    rw [hs]
    simp only [List.map_nil, List.nil_append]
    exact hrec

theorem isReady_valueChanged (b : Backend) (e : Env) (s : Controller) (p : Bool) :
    isReady b e { s with _valueChanged := p } = isReady b e s := by
  cases b <;> rfl

theorem upCalls_append (l1 l2 : List Env) : upCalls (l1 ++ l2) = upCalls l1 ++ upCalls l2 := by
  simp [upCalls]

/-- After the three calls, from a state with a send pending and the last write at
`L`: the calls before `L + 20` write nothing, the first one at or after it writes
UP, the following ones write nothing. -/
theorem run_upCalls_once (b : Backend) (L : Nat) (s3 : Controller) (e4 : Env)
    (early rest : List Env)
    (hr : ∀ e ∈ early ++ e4 :: rest, isReady b e s3 = true)
    (hvc : s3._valueChanged = true) (hL : s3._lastNotificationTime = L % UL_MOD)
    (hacc : writeAccepted b e4 = true)
    (hearly : ∀ e ∈ early, L ≤ e.now ∧ e.now < L + MIN_NOTIFICATION_INTERVAL)
    (h4 : L + MIN_NOTIFICATION_INTERVAL ≤ e4.now ∧ e4.now < L + UL_MOD) :
    (run b s3 (upCalls early)).2 = [] ∧
    (run b s3 (upCalls (early ++ e4 :: rest))).2 = [(e4.now, Effect.write 1 true)] := by
  have hE := run_upCalls_gated b L early s3
    (fun e he => hr e (List.mem_append_left _ he)) hvc hL hearly
  have hr4 : isReady b e4 s3 = true :=
    hr e4 (List.mem_append_right _ (List.mem_cons_self _ _))
  obtain ⟨hp4, hh⟩ := isReady_passes b e4 s3 hr4
  have hv : valueToSend s3 UP = 1 := by simp [valueToSend, validated, hh, UP]
  have hs4 : sendControl b e4 s3 UP =
      ({ s3 with
          _lastSentValue := 1
          _lastNotificationTime := millis e4
          _valueChanged := false },
        [Effect.write 1 true]) := by
    rw [sendControl_eq b e4 s3 UP hp4,
      if_pos ⟨by simp [pendingAfterCompare, hvc], gateOpen_true_of e4 s3 L hL h4.1 h4.2⟩,
      if_pos hacc, hv]
    rfl
  have hR := run_upCalls_idle b rest
    { s3 with
      _lastSentValue := 1
      _lastNotificationTime := millis e4
      _valueChanged := false }
    (fun e he => by
      have := hr e (List.mem_append_right _ (List.mem_cons_of_mem _ he))
      cases b <;> exact this)
    rfl rfl
  refine ⟨by rw [hE], ?_⟩
  have hsplit : upCalls (early ++ e4 :: rest) =
      upCalls early ++ (e4, Op.sendControl UP) :: upCalls rest := by
    simp [upCalls]
  rw [hsplit, run_append, hE, run_cons]
  simp only [step, hs4, hR]
  rfl

/-- C15: in the ready state, take `sendControl(UP)`, `sendControl(DOWN)`,
`sendControl(UP)` at clock values `t1 ≤ t2 ≤ t3`, `t3 ≤ t1 + 5`, all inside one
interval: either all three less than 20 ms after the last notification `L`, or
the first call itself makes the accepted write of UP (then `L = t1`).  DOWN is
never written.  Of the `sendControl(UP)` calls that follow, those made before
`L + 20` write nothing, the first one made at or after `L + 20` (with the
transport taking the write) writes UP, and the ones after it write nothing: UP
is written exactly once. -/
theorem direction_changes_coalesced (b : Backend) (s : Controller) (e1 e2 e3 e4 : Env)
    (early rest : List Env) (L : Nat)
    (hready : ∀ e ∈ e1 :: e2 :: e3 :: (early ++ e4 :: rest), isReady b e s = true)
    (hacc : writeAccepted b e4 = true)
    (h12 : e1.now ≤ e2.now) (h23 : e2.now ≤ e3.now) (h13 : e3.now ≤ e1.now + 5)
    (hwin : (s._lastNotificationTime = L % UL_MOD ∧ L ≤ e1.now ∧
        e3.now < L + MIN_NOTIFICATION_INTERVAL) ∨
      (L = e1.now ∧ (sendControl b e1 s UP).2 = [Effect.write 1 true]))
    (hearly : ∀ e ∈ early, e3.now ≤ e.now ∧ e.now < L + MIN_NOTIFICATION_INTERVAL)
    (h4 : L + MIN_NOTIFICATION_INTERVAL ≤ e4.now ∧ e4.now < L + UL_MOD) :
    2 ∉ writtenValues (run b s (threeCalls e1 e2 e3 ++ upCalls (early ++ e4 :: rest))).2 ∧
    (run b s (threeCalls e1 e2 e3)).2 =
      (sendControl b e1 s UP).2.map (fun x => (e1.now, x)) ∧
    ((sendControl b e1 s UP).2 = [] ∨ (sendControl b e1 s UP).2 = [Effect.write 1 true]) ∧
    (run b (run b s (threeCalls e1 e2 e3)).1 (upCalls early)).2 = [] ∧
    (run b (run b s (threeCalls e1 e2 e3)).1 (upCalls (early ++ e4 :: rest))).2 =
      [(e4.now, Effect.write 1 true)] ∧
    writtenValues (run b s (threeCalls e1 e2 e3 ++ upCalls (early ++ e4 :: rest))).2 =
      writtenValues ((sendControl b e1 s UP).2.map (fun x => (e1.now, x))) ++ [1] := by
  have hr1 : isReady b e1 s = true := hready e1 (List.mem_cons_self _ _)
  have hrs : ∀ e ∈ e2 :: e3 :: (early ++ e4 :: rest),
      isReady b e (sendControl b e1 s UP).1 = true := by
    intro e he
    rw [sendControl_isReady]
    exact hready e (List.mem_cons_of_mem _ he)
  obtain ⟨hp1, hh⟩ := isReady_passes b e1 s hr1
  -- the state after the first call
  have hfirst : (sendControl b e1 s UP).1._lastNotificationTime = L % UL_MOD ∧
      L ≤ e2.now ∧ e3.now < L + MIN_NOTIFICATION_INTERVAL ∧ L ≤ e3.now ∧
      ((sendControl b e1 s UP).2 = [] ∨ (sendControl b e1 s UP).2 = [Effect.write 1 true]) := by
    rcases hwin with ⟨hL, h1, h3⟩ | ⟨hL, hw⟩
    · have hg : gateOpen e1 s = false := gateOpen_false_of e1 s L hL h1 (by omega)
      rw [sendControl_gated b e1 s UP hp1 hg]
      exact ⟨hL, by omega, h3, by omega, Or.inl rfl⟩
    · rw [sendControl_accepted_inv b e1 s UP 1 hw]
      refine ⟨by rw [hL]; rfl, by omega, ?_, by omega, Or.inr hw⟩
      simp only [MIN_NOTIFICATION_INTERVAL]
      omega
  obtain ⟨hL1, hL2, hL3, hL3b, hlog1⟩ := hfirst
  have h23run := down_up_gated b e2 e3 (sendControl b e1 s UP).1 L
    (hrs e2 (List.mem_cons_self _ _))
    (hrs e3 (List.mem_cons_of_mem _ (List.mem_cons_self _ _))) hL1 hL2 h23 hL3
  have hthree : run b s (threeCalls e1 e2 e3) =
      ({ (sendControl b e1 s UP).1 with _valueChanged := true },
        (sendControl b e1 s UP).2.map (fun x => (e1.now, x))) := by
    simp only [threeCalls]
    rw [run_cons]
    simp only [step]
    rw [h23run, List.append_nil]
  have honce := run_upCalls_once b L
    { (sendControl b e1 s UP).1 with _valueChanged := true } e4 early rest
    (fun e he => by
      rw [isReady_valueChanged]
      exact hrs e (List.mem_cons_of_mem _ (List.mem_cons_of_mem _ he)))
    rfl hL1 hacc
    (fun e he => ⟨le_trans hL3b (hearly e he).1, (hearly e he).2⟩) h4
  have hall : (run b s (threeCalls e1 e2 e3 ++ upCalls (early ++ e4 :: rest))).2 =
      (sendControl b e1 s UP).2.map (fun x => (e1.now, x)) ++
        [(e4.now, Effect.write 1 true)] := by
    rw [run_append, hthree, honce.2]
  refine ⟨?_, by rw [hthree], hlog1, by rw [hthree]; exact honce.1,
    by rw [hthree]; exact honce.2, ?_⟩
  · rw [hall]
    rcases hlog1 with h | h <;> rw [h] <;> simp [writtenValues]
  · rw [hall, writtenValues_append]
    rfl

theorem direction_changes_coalesced_witness :
    (run Backend.arduinoBLE (playingState Backend.arduinoBLE)
      (threeCalls (envAt 170) (envAt 172) (envAt 174) ++
        upCalls ([envAt 180] ++ envAt 190 :: [envAt 195, envAt 230]))).2 =
      [(170, Effect.write 1 true), (190, Effect.write 1 true)] ∧
    (run Backend.nimble (run Backend.nimble (playingState Backend.nimble)
      (threeCalls (envAt 150) (envAt 152) (envAt 154))).1
      (upCalls ([envAt 160] ++ envAt 163 :: [envAt 200]))).2 =
      [(163, Effect.write 1 true)] :=
  ⟨by decide,
   (direction_changes_coalesced Backend.nimble (playingState Backend.nimble)
      (envAt 150) (envAt 152) (envAt 154) (envAt 163) [envAt 160] [envAt 200] 143
      (by decide) (by decide) (by decide) (by decide) (by decide) (by decide) (by decide)
      (by decide)).2.2.2.2.1⟩

/-! ## Persistence of a pending send -/

theorem step_valueChanged_stays (b : Backend) (e : Env) (s : Controller) (op : Op)
    (h1 : ∀ d, op ≠ Op.sendControl d) (h2 : op ≠ Op.onDisconnect)
    (hvc : s._valueChanged = true) : (step b e s op).1._valueChanged = true := by
  cases op with
  | sendControl d => exact absurd rfl (h1 d)
  | onDisconnect => exact absurd rfl h2
  | onConnect => cases b <;> rfl
  | beginDefault =>
    simp only [step, beginDefault]; rw [(beginNamed_session b e s _).2.2.1]; exact hvc
  | beginNamed name => simp only [step]; rw [(beginNamed_session b e s _).2.2.1]; exact hvc
  | update => simp only [step, update_state]; rw [updateLED_frame]; exact hvc
  | setStatusLED pin => simpa [step, setStatusLED] using hvc
  | setControllerNumber n => simpa [step, setControllerNumber] using hvc
  | setDebug d => simpa [step, setDebug] using hvc
  | setRSSIThreshold d => simpa [step, setRSSIThreshold] using hvc
  | onCharacteristicWritten w =>
    simp only [step, onWritten_eq]
    split_ifs
    · exact hvc
    · exact hvc

theorem sendControl_valueChanged (b : Backend) (e : Env) (s : Controller) (d : Int)
    (hp : passesConnectionCheck b e s = true) :
    ((sendControl b e s d).2 = [Effect.write (toByte (valueToSend s d)) true] ∧
      (sendControl b e s d).1._valueChanged = false) ∨
    ((∀ v, Effect.write v true ∉ (sendControl b e s d).2) ∧
      (sendControl b e s d).1._valueChanged = pendingAfterCompare s d) := by
  rw [sendControl_eq b e s d hp]
  by_cases hc : pendingAfterCompare s d = true ∧ gateOpen e s = true
  · rw [if_pos hc]
    by_cases hw : writeAccepted b e = true
    · rw [if_pos hw]; left; exact ⟨rfl, rfl⟩
    · rw [if_neg hw]; right; exact ⟨by simp, hc.1.symm⟩
  · rw [if_neg hc]; right; exact ⟨by simp, rfl⟩

/-- C16: a `sendControl` call that passes the connection test and makes no accepted
write leaves `_valueChanged` true whenever it was true before or the value to
send differs from `_lastSentValue`; and over every call and event,
`_valueChanged` goes from true to false only in the disconnect handler or in a
`sendControl` whose write was accepted. -/
theorem pending_send_persists (b : Backend) (e : Env) (s : Controller) (d : Int)
    (op : Op) :
    (passesConnectionCheck b e s = true →
      (∀ v, Effect.write v true ∉ (sendControl b e s d).2) →
      (s._valueChanged = true ∨ valueToSend s d ≠ s._lastSentValue) →
      (sendControl b e s d).1._valueChanged = true) ∧
    (s._valueChanged = true → (step b e s op).1._valueChanged = false →
      op = Op.onDisconnect ∨
      ∃ d2, op = Op.sendControl d2 ∧
        (step b e s op).2 = [Effect.write (toByte (valueToSend s d2)) true]) ∧
    (s._valueChanged = true → (onDisconnect b s).1._valueChanged = false) := by
  refine ⟨?_, ?_, ?_⟩
  · intro hp hno hpend
    rcases sendControl_valueChanged b e s d hp with h | h
    · exact absurd (by rw [h.1]; simp) (hno (toByte (valueToSend s d)))
    · rw [h.2]
      rcases hpend with h1 | h1
      · simp [pendingAfterCompare, h1]
      · simp [pendingAfterCompare, h1]
  · intro hvc hf
    by_cases hd : op = Op.onDisconnect
    · exact Or.inl hd
    · right
      by_cases hs : ∃ d2, op = Op.sendControl d2
      · obtain ⟨d2, rfl⟩ := hs
        refine ⟨d2, rfl, ?_⟩
        simp only [step] at hf ⊢
        by_cases hp : passesConnectionCheck b e s = true
        · rcases sendControl_valueChanged b e s d2 hp with h | h
          · exact h.1
          · rw [h.2] at hf
            simp [pendingAfterCompare, hvc] at hf
        · rw [sendControl_blocked b e s d2 (by simpa using hp), hvc] at hf
          exact absurd hf (by decide)
      · have := step_valueChanged_stays b e s op (fun d2 h => hs ⟨d2, h⟩) hd hvc
        rw [this] at hf
        exact absurd hf (by decide)
  · intro _
    cases b <;> rfl

/-! ## Status queries -/

theorem beginNamed_rssiThreshold (b : Backend) (e : Env) (s : Controller) (name : String) :
    (beginNamed b e s name).2.1._rssiThreshold = s._rssiThreshold := by
  unfold beginNamed
  split_ifs
  · simp
  · cases b
    · simp [generateUUIDs]
    · simp only []
      split_ifs <;> simp [generateUUIDs]

theorem step_rssiThreshold (b : Backend) (e : Env) (s : Controller) (op : Op)
    (h : ∀ t, op ≠ Op.setRSSIThreshold t) :
    (step b e s op).1._rssiThreshold = s._rssiThreshold := by
  cases op with
  | setRSSIThreshold t => exact absurd rfl (h t)
  | sendControl d =>
    simp only [step]
    by_cases hp : passesConnectionCheck b e s = true
    · rw [sendControl_eq b e s d hp]
      split_ifs <;> rfl
    · rw [sendControl_blocked b e s d (by simpa using hp)]
  | onDisconnect => cases b <;> rfl
  | onConnect => cases b <;> rfl
  | beginDefault => exact beginNamed_rssiThreshold b e s _
  | beginNamed name => exact beginNamed_rssiThreshold b e s _
  | update => simp only [step, update_state]; rw [updateLED_frame]
  | setStatusLED pin => rfl
  | setControllerNumber n => rfl
  | setDebug d => rfl
  | onCharacteristicWritten w =>
    simp only [step, onWritten_eq]
    split_ifs <;> rfl

/-- C18: `hasStrongSignal()` is true exactly when the reading of `getRSSI()` is not 0
and is above `_rssiThreshold`; the threshold is -70 after construction, is the
argument after `setRSSIThreshold`, and is kept by every other call and event;
`getRSSI()` is 0 when no central is connected, and then `hasStrongSignal()` is
false whatever the threshold; on ArduinoBLE the reading is any value the
central reports. -/
theorem strong_signal_iff (b : Backend) (e : Env) (s : Controller) (t : Int) (op : Op) :
    (hasStrongSignal b e s = true ↔
      (getRSSI b e s ≠ 0 ∧ getRSSI b e s > s._rssiThreshold)) ∧
    construct._rssiThreshold = -70 ∧
    (setRSSIThreshold s t)._rssiThreshold = t ∧
    (hasStrongSignal b e (setRSSIThreshold s t) = true ↔
      (getRSSI b e s ≠ 0 ∧ getRSSI b e s > t)) ∧
    ((∀ t2, op ≠ Op.setRSSIThreshold t2) →
      (step b e s op).1._rssiThreshold = s._rssiThreshold) ∧
    (getRSSI b e s = 0 → hasStrongSignal b e s = false) ∧
    (e.centralConnected = false → getRSSI Backend.arduinoBLE e s = 0) ∧
    (e.connectedCount = 0 → getRSSI Backend.nimble e s = 0) ∧
    (e.centralConnected = true → getRSSI Backend.arduinoBLE e s = e.rssi) := by
  refine ⟨?_, rfl, rfl, ?_, step_rssiThreshold b e s op, ?_, ?_, ?_, ?_⟩
  · simp [hasStrongSignal]
  · have hr : getRSSI b e (setRSSIThreshold s t) = getRSSI b e s := by cases b <;> rfl
    have ht : (setRSSIThreshold s t)._rssiThreshold = t := rfl
    simp only [hasStrongSignal, hr, ht]
    simp
  · intro h
    simp [hasStrongSignal, h]
  · intro h
    simp [getRSSI, h]
  · intro h
    simp [getRSSI, h]
  · intro h
    simp [getRSSI, h]

/-! ## Status LED -/

/-- C19: `updateLED` with no LED configured (pin below 0) returns the controller
unchanged and makes no call; connected with the handshake complete it drives the
pin high and changes nothing; connected without the handshake it toggles
`_ledState`, drives the pin with the new state and sets `_lastLedToggle` to
`millis()` exactly when the `unsigned long` difference `millis() - _lastLedToggle`
is at least 100, and otherwise does nothing; not connected, the same with 500;
the members of the Session, and every member other than `_ledState` and
`_lastLedToggle`, are never changed. -/
theorem updateLED_policy (b : Backend) (e : Env) (s : Controller) :
    (s._statusLedPin < 0 → updateLED b e s = (s, [])) ∧
    (0 ≤ s._statusLedPin → isConnected b e s = true → s._handshakeComplete = true →
      updateLED b e s = (s, [Effect.digitalWrite s._statusLedPin true])) ∧
    (0 ≤ s._statusLedPin → isConnected b e s = true → s._handshakeComplete = false →
      updateLED b e s =
        if ulSub (millis e) s._lastLedToggle ≥ 100 then
          ({ s with _ledState := !s._ledState, _lastLedToggle := millis e },
            [Effect.digitalWrite s._statusLedPin (!s._ledState)])
        else (s, [])) ∧
    (0 ≤ s._statusLedPin → isConnected b e s = false →
      updateLED b e s =
        if ulSub (millis e) s._lastLedToggle ≥ 500 then
          ({ s with _ledState := !s._ledState, _lastLedToggle := millis e },
            [Effect.digitalWrite s._statusLedPin (!s._ledState)])
        else (s, [])) ∧
    (s._lastLedToggle ≤ e.now → e.now < UL_MOD →
      ulSub (millis e) s._lastLedToggle = e.now - s._lastLedToggle) ∧
    (updateLED b e s).1 =
      { s with
        _ledState := (updateLED b e s).1._ledState
        _lastLedToggle := (updateLED b e s).1._lastLedToggle } ∧
    (updateLED b e s).1._deviceConnected = s._deviceConnected ∧
    (updateLED b e s).1._handshakeComplete = s._handshakeComplete ∧
    (updateLED b e s).1._connectionStartTime = s._connectionStartTime ∧
    (updateLED b e s).1._lastSentValue = s._lastSentValue ∧
    (updateLED b e s).1._valueChanged = s._valueChanged ∧
    (updateLED b e s).1._lastNotificationTime = s._lastNotificationTime := by
  have hf := updateLED_frame b e s
  refine ⟨?_, ?_, ?_, ?_, ?_, hf, by rw [hf], by rw [hf], by rw [hf], by rw [hf],
    by rw [hf], by rw [hf]⟩
  · intro h
    simp [updateLED, h]
  · intro h hc hh
    have h2 : ¬ s._statusLedPin < 0 := by omega
    simp [updateLED, h2, hc, hh]
  · intro h hc hh
    have h2 : ¬ s._statusLedPin < 0 := by omega
    simp [updateLED, h2, hc, hh, LED_BLINK_FAST]
  · intro h hc
    have h2 : ¬ s._statusLedPin < 0 := by omega
    simp [updateLED, h2, hc, LED_BLINK_SLOW]
  · intro h1 h2
    rw [millis_of_lt e h2, ulSub_of_le _ _ h1 h2]

/-! ## Distinct identifiers -/

theorem hexValue_lowerHexDigit (d : Nat) (h : d < 16) : hexValue (lowerHexDigit d) = d := by
  interval_cases d <;> rfl

theorem twoHexDigits_injective (k1 k2 : Nat)
    (h : twoHexDigits k1 = twoHexDigits k2) (h1 : k1 < 256) (h2 : k2 < 256) : k1 = k2 := by
  have hl := congrArg String.data h
  simp only [twoHexDigits, List.cons.injEq, and_true] at hl
  have ha := congrArg hexValue hl.1
  have hb := congrArg hexValue hl.2
  rw [hexValue_lowerHexDigit _ (by omega), hexValue_lowerHexDigit _ (by omega)] at ha
  rw [hexValue_lowerHexDigit _ (by omega), hexValue_lowerHexDigit _ (by omega)] at hb
  omega

theorem generateUUIDs_texts (s : Controller)
    (h1 : 1 ≤ s._controllerNumber) (h2 : s._controllerNumber ≤ 242) :
    (generateUUIDs s)._serviceUuid =
        String.mk (serviceBase.data ++ (twoHexDigits (13 + s._controllerNumber).toNat).data) ∧
    (generateUUIDs s)._characteristicUuid =
        String.mk (characteristicBase.data ++
          (twoHexDigits (13 + s._controllerNumber).toNat).data) := by
  have hx := hex02_eq_twoHexDigits s._controllerNumber h1 h2
  have hs : ∀ a c : Char, snprintf 37 (serviceBase ++ String.mk [a, c]) =
      String.mk (serviceBase.data ++ [a, c]) := fun _ _ => rfl
  have hc : ∀ a c : Char, snprintf 37 (characteristicBase ++ String.mk [a, c]) =
      String.mk (characteristicBase.data ++ [a, c]) := fun _ _ => rfl
  simp only [generateUUIDs, hx, twoHexDigits, hs, hc, and_self]

theorem generateUUIDs_prefixes (s : Controller) :
    (generateUUIDs s)._serviceUuid.data.take 34 = serviceBase.data ∧
    (generateUUIDs s)._characteristicUuid.data.take 34 = characteristicBase.data := by
  have hs : ∀ r : List Char, ((serviceBase.data ++ r).take 36).take 34 = serviceBase.data :=
    fun _ => rfl
  have hc : ∀ r : List Char,
      ((characteristicBase.data ++ r).take 36).take 34 = characteristicBase.data :=
    fun _ => rfl
  simp only [generateUUIDs, snprintf, String.data_append]
  exact ⟨hs _, hc _⟩

/-- C20: for two controller numbers of the range 1..242 that differ, the generated
service identifiers differ and the generated characteristic identifiers differ;
the service identifier of any controller differs from the characteristic
identifier of any controller; and two controllers with the same number get the
same identifiers whatever their other members. -/
theorem identifiers_injective (s1 s2 : Controller)
    (h1 : 1 ≤ s1._controllerNumber ∧ s1._controllerNumber ≤ 242)
    (h2 : 1 ≤ s2._controllerNumber ∧ s2._controllerNumber ≤ 242)
    (hne : s1._controllerNumber ≠ s2._controllerNumber) :
    (generateUUIDs s1)._serviceUuid ≠ (generateUUIDs s2)._serviceUuid ∧
    (generateUUIDs s1)._characteristicUuid ≠ (generateUUIDs s2)._characteristicUuid ∧
    (∀ t1 t2 : Controller,
      (generateUUIDs t1)._serviceUuid ≠ (generateUUIDs t2)._characteristicUuid) ∧
    (∀ t1 t2 : Controller, t1._controllerNumber = t2._controllerNumber →
      (generateUUIDs t1)._serviceUuid = (generateUUIDs t2)._serviceUuid ∧
      (generateUUIDs t1)._characteristicUuid = (generateUUIDs t2)._characteristicUuid) := by
  have e1 := generateUUIDs_texts s1 h1.1 h1.2
  have e2 := generateUUIDs_texts s2 h2.1 h2.2
  have hk : ∀ t : String,
      (t = twoHexDigits (13 + s2._controllerNumber).toNat) →
      twoHexDigits (13 + s1._controllerNumber).toNat ≠ t := by
    intro t ht heq
    rw [ht] at heq
    have := twoHexDigits_injective _ _ heq (by omega) (by omega)
    omega
  refine ⟨?_, ?_, ?_, ?_⟩
  · intro h
    rw [e1.1, e2.1] at h
    have hl := congrArg String.data h
    simp only [List.append_cancel_left_eq] at hl
    exact hk _ rfl (String.ext hl)
  · intro h
    rw [e1.2, e2.2] at h
    have hl := congrArg String.data h
    simp only [List.append_cancel_left_eq] at hl
    exact hk _ rfl (String.ext hl)
  · intro t1 t2 h
    have h3 := congrArg (fun t : String => t.data.take 34) h
    simp only [(generateUUIDs_prefixes t1).1, (generateUUIDs_prefixes t2).2] at h3
    exact absurd h3 (by decide)
  · intro t1 t2 h
    simp only [generateUUIDs, h, and_self]

theorem identifiers_injective_witness :
    (generateUUIDs (setControllerNumber construct 1))._serviceUuid ≠
      (generateUUIDs (setControllerNumber construct 242))._serviceUuid :=
  (identifiers_injective (setControllerNumber construct 1) (setControllerNumber construct 242)
    (by decide) (by decide) (by decide)).1

/-! ## When `sendControl` writes -/

theorem sendControl_write_iff (b : Backend) (e : Env) (s : Controller) (d : Int) :
    (∃ v acc, Effect.write v acc ∈ (sendControl b e s d).2) ↔
      (passesConnectionCheck b e s = true ∧ pendingAfterCompare s d = true ∧
        gateOpen e s = true) := by
  by_cases hp : passesConnectionCheck b e s = true
  · rw [sendControl_eq b e s d hp]
    by_cases hc : pendingAfterCompare s d = true ∧ gateOpen e s = true
    · rw [if_pos hc]
      constructor
      · intro _; exact ⟨hp, hc.1, hc.2⟩
      · intro _
        by_cases hw : writeAccepted b e = true
        · rw [if_pos hw]; exact ⟨_, _, List.mem_cons_self _ _⟩
        · rw [if_neg hw]; exact ⟨_, _, List.mem_cons_self _ _⟩
    · rw [if_neg hc]
      constructor
      · rintro ⟨v, acc, h⟩; simp at h
      · rintro ⟨_, h1, h2⟩; exact absurd ⟨h1, h2⟩ hc
  · rw [sendControl_blocked b e s d (by simpa using hp)]
    constructor
    · rintro ⟨v, acc, h⟩; simp at h
    · rintro ⟨h, _⟩; exact absurd h hp

/-- C21, as stated, fails: right after a connect `_lastSentValue` is already 3 and
`sendControl` writes 3 all the same, because the connect handler has set
`_valueChanged`; and in the ready state a request for UP held back by the
interval leaves `_valueChanged` set, so a later `sendControl(DOWN)` writes DOWN
although DOWN is the value last sent. -/
theorem write_without_value_change :
    ¬ SendsOnlyOnChange Backend.nimble (envAt 120) (handshakingState Backend.nimble) UP ∧
    ¬ SendsOnlyOnChange Backend.arduinoBLE (envAt 120)
        (handshakingState Backend.arduinoBLE) UP ∧
    (sendControl Backend.nimble (envAt 120) (handshakingState Backend.nimble) UP).2
      = [Effect.write 3 true] ∧
    valueToSend (handshakingState Backend.nimble) UP
      = (handshakingState Backend.nimble)._lastSentValue ∧
    ¬ SendsOnlyOnChange Backend.arduinoBLE (envAt 170)
        (heldBackState Backend.arduinoBLE) DOWN ∧
    (sendControl Backend.arduinoBLE (envAt 170) (heldBackState Backend.arduinoBLE) DOWN).2
      = [Effect.write 2 true] ∧
    valueToSend (heldBackState Backend.arduinoBLE) DOWN
      = (heldBackState Backend.arduinoBLE)._lastSentValue := by
  refine ⟨?_, ?_, by decide, by decide, ?_, by decide, by decide⟩
  · intro h
    have hw : (sendControl Backend.nimble (envAt 120) (handshakingState Backend.nimble) UP).2
        = [Effect.write 3 true] := by decide
    exact (h 3 true (by rw [hw]; exact List.mem_cons_self _ _)).1 (by decide)
  · intro h
    have hw : (sendControl Backend.arduinoBLE (envAt 120)
        (handshakingState Backend.arduinoBLE) UP).2 = [Effect.write 3 true] := by decide
    exact (h 3 true (by rw [hw]; exact List.mem_cons_self _ _)).1 (by decide)
  · intro h
    have hw : (sendControl Backend.arduinoBLE (envAt 170)
        (heldBackState Backend.arduinoBLE) DOWN).2 = [Effect.write 2 true] := by decide
    exact (h 2 true (by rw [hw]; exact List.mem_cons_self _ _)).1 (by decide)

/-- C21, amended: `sendControl` attempts a write exactly when it passes the
connection test, a send is pending (`_valueChanged` was already set, or the
value to send differs from `_lastSentValue`) and the `unsigned long` difference
`millis() - _lastNotificationTime` is at least 20; so every write has a
pending send and an elapsed interval behind it, a value that differs from
`_lastSentValue` is enough to make the send pending, and with the last
notification at clock value `L` a write at clock value `now ≥ L` has
`L + 20 ≤ now`. -/
theorem write_only_when_pending_and_due (b : Backend) (e : Env) (s : Controller) (d : Int) :
    ((∃ v acc, Effect.write v acc ∈ (sendControl b e s d).2) ↔
      (passesConnectionCheck b e s = true ∧
        (s._valueChanged = true ∨ valueToSend s d ≠ s._lastSentValue) ∧
        ulSub (millis e) s._lastNotificationTime ≥ MIN_NOTIFICATION_INTERVAL)) ∧
    (∀ v acc, Effect.write v acc ∈ (sendControl b e s d).2 →
      (s._valueChanged = true ∨ valueToSend s d ≠ s._lastSentValue) ∧
        ulSub (millis e) s._lastNotificationTime ≥ MIN_NOTIFICATION_INTERVAL) ∧
    (s._valueChanged = false →
      ∀ v acc, Effect.write v acc ∈ (sendControl b e s d).2 →
        valueToSend s d ≠ s._lastSentValue) ∧
    (∀ L : Nat, s._lastNotificationTime = L % UL_MOD → L ≤ e.now →
      ∀ v acc, Effect.write v acc ∈ (sendControl b e s d).2 →
        L + MIN_NOTIFICATION_INTERVAL ≤ e.now) := by
  have hpend : pendingAfterCompare s d = true ↔
      (s._valueChanged = true ∨ valueToSend s d ≠ s._lastSentValue) := by
    simp [pendingAfterCompare]
  have hgate : gateOpen e s = true ↔
      ulSub (millis e) s._lastNotificationTime ≥ MIN_NOTIFICATION_INTERVAL := by
    simp [gateOpen]
  have hiff := sendControl_write_iff b e s d
  rw [hpend, hgate] at hiff
  have hall : ∀ v acc, Effect.write v acc ∈ (sendControl b e s d).2 →
      (s._valueChanged = true ∨ valueToSend s d ≠ s._lastSentValue) ∧
        ulSub (millis e) s._lastNotificationTime ≥ MIN_NOTIFICATION_INTERVAL :=
    fun v acc h => (hiff.1 ⟨v, acc, h⟩).2
  refine ⟨hiff, hall, ?_, ?_⟩
  · intro hvc v acc h
    rcases (hall v acc h).1 with h1 | h1
    · rw [hvc] at h1; exact absurd h1 (by decide)
    · exact h1
  · intro L hL hle v acc h
    have hg := (hall v acc h).2
    rw [hL] at hg
    exact gate_open_elapsed L e.now hle hg

/-! ## Wraparound of the millisecond clock -/

theorem ulSub_elapsed (T el : Nat) (h : el < UL_MOD) :
    ulSub ((T + el) % UL_MOD) (T % UL_MOD) = el := by
  rw [ulSub_millis T (T + el) (Nat.le_add_right _ _), Nat.add_sub_cancel_left,
    Nat.mod_eq_of_lt h]

/-- C22: with a timestamp stored as the 32-bit reading of a clock value `T` and
`millis()` read `el < 2^32` ms later, the `unsigned long` difference computed by
the code is `el`, also when the clock has wrapped in between.  So the interval
test of `sendControl` is open exactly when `el ≥ 20` (and a pending send past
the connection test is attempted exactly then), and `update()` requests the
timeout disconnect exactly when connected, handshake incomplete and `el > 5000`.
In the claim's own terms: for a stored value `L < 2^32` and elapsed `x < 2^32`,
the difference of `(L + x) mod 2^32` and `L` is at least 20 iff `x ≥ 20` and
exceeds 5000 iff `x > 5000`. -/
theorem elapsed_checks_survive_wrap (b : Backend) (e : Env) (s : Controller)
    (T1 el1 T2 el2 : Nat)
    (hN : s._lastNotificationTime = T1 % UL_MOD) (hn : e.now = T1 + el1)
    (h1 : el1 < UL_MOD)
    (hC : s._connectionStartTime = T2 % UL_MOD) (hc : e.now = T2 + el2)
    (h2 : el2 < UL_MOD) :
    ulSub (millis e) s._lastNotificationTime = el1 ∧
    (gateOpen e s = true ↔ el1 ≥ 20) ∧
    (∀ d, passesConnectionCheck b e s = true → pendingAfterCompare s d = true →
      ((∃ v acc, Effect.write v acc ∈ (sendControl b e s d).2) ↔ el1 ≥ 20)) ∧
    ulSub (millis e) s._connectionStartTime = el2 ∧
    (Effect.disconnect ∈ (update b e s).2 ↔
      (isConnected b e s = true ∧ s._handshakeComplete = false ∧ el2 > 5000)) ∧
    (∀ L x : Nat, L < UL_MOD → x < UL_MOD →
      (ulSub ((L + x) % UL_MOD) L ≥ 20 ↔ x ≥ 20) ∧
      (ulSub ((L + x) % UL_MOD) L > 5000 ↔ x > 5000)) := by
  have hg : ulSub (millis e) s._lastNotificationTime = el1 := by
    rw [hN, millis, hn]; exact ulSub_elapsed T1 el1 h1
  have ht : ulSub (millis e) s._connectionStartTime = el2 := by
    rw [hC, millis, hc]; exact ulSub_elapsed T2 el2 h2
  have hgate : gateOpen e s = true ↔ el1 ≥ 20 := by
    simp [gateOpen, hg, MIN_NOTIFICATION_INTERVAL]
  refine ⟨hg, hgate, ?_, ht, ?_, ?_⟩
  · intro d hp hpend
    rw [sendControl_write_iff, ← hgate]
    constructor
    · intro h; exact h.2.2
    · intro h; exact ⟨hp, hpend, h⟩
  · rw [update_disconnect_mem, ht]
    rfl
  · intro L x hL hx
    have h := ulSub_elapsed L x hx
    rw [Nat.mod_eq_of_lt hL] at h
    rw [h]
    exact ⟨Iff.rfl, Iff.rfl⟩

theorem elapsed_checks_survive_wrap_witness :
    millis (envAt 4294967311) = 15 ∧
    (beforeWrapState Backend.nimble)._lastNotificationTime = 4294967286 ∧
    gateOpen (envAt 4294967311) (beforeWrapState Backend.nimble) = true ∧
    (Effect.disconnect ∈
      (update Backend.nimble (envAt 4294972201) (beforeWrapState Backend.nimble)).2) :=
  ⟨by decide, by decide,
   (elapsed_checks_survive_wrap Backend.nimble (envAt 4294967311)
      (beforeWrapState Backend.nimble) 4294967286 25 4294967200 111
      (by decide) (by decide) (by decide) (by decide) (by decide) (by decide)).2.1.mpr
      (by decide),
   (elapsed_checks_survive_wrap Backend.nimble (envAt 4294972201)
      (beforeWrapState Backend.nimble) 4294967286 4915 4294967200 5001
      (by decide) (by decide) (by decide) (by decide) (by decide) (by decide)).2.2.2.2.1.mpr
      (by decide)⟩

/-! ## Handshake flag and connection flag -/

theorem step_keeps_connection_flags (b : Backend) (e : Env) (s : Controller) (op : Op)
    (h1 : op ≠ Op.onConnect) (h2 : op ≠ Op.onDisconnect)
    (h3 : ∀ w, op ≠ Op.onCharacteristicWritten w) :
    (step b e s op).1._deviceConnected = s._deviceConnected ∧
    (step b e s op).1._handshakeComplete = s._handshakeComplete := by
  cases op with
  | onConnect => exact absurd rfl h1
  | onDisconnect => exact absurd rfl h2
  | onCharacteristicWritten w => exact absurd rfl (h3 w)
  | sendControl d =>
    exact ⟨(sendControl_keeps_flags b e s d).2.2.1, (sendControl_keeps_flags b e s d).1⟩
  | beginDefault =>
    exact ⟨(beginNamed_session b e s _).2.2.2.1, (beginNamed_session b e s _).1⟩
  | beginNamed name =>
    exact ⟨(beginNamed_session b e s _).2.2.2.1, (beginNamed_session b e s _).1⟩
  | update =>
    simp only [step, update_state]
    rw [updateLED_frame]
    exact ⟨rfl, rfl⟩
  | setStatusLED pin => exact ⟨rfl, rfl⟩
  | setControllerNumber n => exact ⟨rfl, rfl⟩
  | setDebug d => exact ⟨rfl, rfl⟩
  | setRSSIThreshold d => exact ⟨rfl, rfl⟩

theorem run_handshake_implies_connected (b : Backend) (tr : List (Env × Op)) :
    ∀ (s : Controller) (conn : Bool), s._deviceConnected = conn →
      (s._handshakeComplete = true → s._deviceConnected = true) →
      writesWhileConnected conn tr = true →
      ((run b s tr).1._handshakeComplete = true → (run b s tr).1._deviceConnected = true) := by
  induction tr with
  | nil => intro s conn _ hinv _; exact hinv
  | cons x rest ih =>
    obtain ⟨e, op⟩ := x
    intro s conn hconn hinv hord
    rw [run_cons]
    by_cases h1 : op = Op.onConnect
    · subst h1
      simp only [writesWhileConnected] at hord
      refine ih _ true ?_ ?_ hord
      · cases b <;> rfl
      · intro _; cases b <;> rfl
    · by_cases h2 : op = Op.onDisconnect
      · subst h2
        simp only [writesWhileConnected] at hord
        refine ih _ false ?_ ?_ hord
        · cases b <;> rfl
        · intro h
          have hf : (step b e s Op.onDisconnect).1._handshakeComplete = false := by
            cases b <;> rfl
          rw [hf] at h
          exact absurd h (by decide)
      · by_cases h3 : ∃ w, op = Op.onCharacteristicWritten w
        · obtain ⟨w, rfl⟩ := h3
          simp only [writesWhileConnected, Bool.and_eq_true] at hord
          have hdc : (step b e s (Op.onCharacteristicWritten w)).1._deviceConnected
              = s._deviceConnected := by
            simp only [step, onWritten_eq]
            split_ifs <;> rfl
          refine ih _ conn (by rw [hdc]; exact hconn) ?_ hord.2
          intro _
          rw [hdc, hconn]
          exact hord.1
        · have hk := step_keeps_connection_flags b e s op h1 h2 (fun w h => h3 ⟨w, h⟩)
          have hord2 : writesWhileConnected conn rest = true := by
            cases op <;> simp_all [writesWhileConnected]
          refine ih _ conn (by rw [hk.1]; exact hconn) ?_ hord2
          rw [hk.1, hk.2]
          exact hinv

/-- C23: in every state reached from the constructed one by calls and events in
which a characteristic-written event comes only between a connect event and the
next disconnect event, `_handshakeComplete` true implies `_deviceConnected`
true.  Without that order the implication fails: the handshake byte handled
after the disconnect (or on the constructed controller) sets
`_handshakeComplete` while `_deviceConnected` is false, since the handler does
not look at the connection. -/
theorem handshake_implies_connected (b : Backend) (tr : List (Env × Op))
    (hord : writesWhileConnected false tr = true) :
    ((run b construct tr).1._handshakeComplete = true →
      (run b construct tr).1._deviceConnected = true) ∧
    writesWhileConnected false lateHandshakeTrace = false ∧
    (run b construct lateHandshakeTrace).1._handshakeComplete = true ∧
    (run b construct lateHandshakeTrace).1._deviceConnected = false ∧
    (run b construct [(envAt 0, Op.onCharacteristicWritten 3)]).1._handshakeComplete = true ∧
    (run b construct [(envAt 0, Op.onCharacteristicWritten 3)]).1._deviceConnected = false ∧
    (∀ s : Controller, (onWritten b s 3)._handshakeComplete = true ∧
      (onWritten b s 3)._deviceConnected = s._deviceConnected) := by
  refine ⟨run_handshake_implies_connected b tr construct false rfl
      (fun h => absurd h (by decide)) hord,
    by decide, ?_, ?_, ?_, ?_, ?_⟩
  · cases b <;> decide
  · cases b <;> decide
  · cases b <;> decide
  · cases b <;> decide
  · intro s
    rw [onWritten_eq]
    exact ⟨rfl, rfl⟩

theorem handshake_implies_connected_witness :
    (run Backend.arduinoBLE construct
      (startTrace ++ reconnectTrace ++ playTrace)).1._handshakeComplete = true ∧
    (run Backend.arduinoBLE construct
      (startTrace ++ reconnectTrace ++ playTrace)).1._deviceConnected = true :=
  ⟨by decide,
   (handshake_implies_connected Backend.arduinoBLE (startTrace ++ reconnectTrace ++ playTrace)
      (by decide)).1 (by decide)⟩

/-! ## Status queries on the states the controller can reach -/

end DFPong
